import Mathlib

/-!
# Verification of the fetchbot specification against its code

A shallow embedding of the fetchbot repository (TMDB catalog client,
pydantic-style data models, and the JSON/CSV/TXT/XML exporters), with
theorems settling the behavioural claims of the specification.

Conventions of the embedding:
* Python dicts produced by `model_dump()` become association lists
  `List (String × Json)` whose keys follow the pydantic field order.
* JSON numeric leaves are modelled as `Int`; none of the verified claims
  performs arithmetic on fractional values, so floating point numbers of
  the source are represented by integers.
* `None` / absent keys are modelled with `Option` and key-absence in the
  association list; fallible operations return `Option`.
-/

namespace FetchBot

/-- A JSON-like value: the common data shape flowing between the
pydantic models (`model_dump()` output) and the exporters. -/
inductive Json where
  | null : Json
  | bool (b : Bool) : Json
  | num (n : Int) : Json
  | str (s : String) : Json
  | arr (elems : List Json) : Json
  | obj (fields : List (String × Json)) : Json

/-- Model of `d.get(k)` on a Python dict: first binding of the key, if any. -/
def dget (d : List (String × Json)) (k : String) : Option Json :=
  match d with
  | [] => none
  | (k', v) :: rest => if k' = k then some v else dget rest k

/-- Model of `d.get(k, dflt)` on a Python dict. -/
def dgetD (d : List (String × Json)) (k : String) (dflt : Json) : Json :=
  (dget d k).getD dflt

/-- Model of `d.pop(k, None)` on a Python dict (the resulting dict: the key removed). -/
def dpop (d : List (String × Json)) (k : String) : List (String × Json) :=
  d.filter (fun p => p.1 ≠ k)

/-- Model of `d[k] = v` on a Python dict: replaces in place, appends when absent. -/
def dset (d : List (String × Json)) (k : String) (v : Json) :
    List (String × Json) :=
  match d with
  | [] => [(k, v)]
  | (a, w) :: rest => if a = k then (a, v) :: rest else (a, w) :: dset rest k v

theorem dget_dpop (d : List (String × Json)) (k k' : String) :
    dget (dpop d k') k = if k = k' then none else dget d k := by
  induction d with
  | nil => simp [dget, dpop]
  | cons p rest ih =>
    obtain ⟨a, v⟩ := p
    by_cases hak : a = k'
    · rw [show dpop ((a, v) :: rest) k' = dpop rest k' by
        simp [dpop, List.filter_cons, hak]]
      rw [ih]
      by_cases hkk : k = k'
      · simp [hkk]
      · have hak2 : a ≠ k := by rw [hak]; exact fun h => hkk h.symm
        simp [hkk, dget, hak2]
    · rw [show dpop ((a, v) :: rest) k' = (a, v) :: dpop rest k' by
        simp [dpop, List.filter_cons, hak]]
      by_cases hka : a = k
      · have hkk : k ≠ k' := fun h => hak ((hka.trans h))
        simp [dget, hka, hkk]
      · simp [dget, hka, ih]

theorem dget_dset (d : List (String × Json)) (k k' : String) (v : Json) :
    dget (dset d k' v) k = if k = k' then some v else dget d k := by
  induction d with
  | nil =>
    by_cases h : k = k'
    · simp [dset, dget, h]
    · simp [dset, dget, h, Ne.symm h]
  | cons p rest ih =>
    obtain ⟨a, w⟩ := p
    by_cases hak : a = k'
    · by_cases hka : a = k
      · have hkk : k = k' := hka.symm.trans hak
        simp [dset, dget, hak, hka, hkk]
      · have hkk : k ≠ k' := fun h => hka ((hak.trans h.symm))
        simp [dset, dget, hak, hka, hkk, Ne.symm hkk]
    · by_cases hka : a = k
      · have hkk : k ≠ k' := fun h => hak (hka.trans h)
        simp [dset, dget, hak, hka, hkk]
      · simp [dset, dget, hak, hka, ih]

/-- Python truthiness of a JSON value (`if value:`). -/
def Json.truthy : Json → Bool
  | .null => false
  | .bool b => b
  | .num n => n ≠ 0
  | .str s => s ≠ ""
  | .arr l => ¬ l.isEmpty
  | .obj l => ¬ l.isEmpty

/-- Python `str(value)` for the scalar values the exporters interpolate
(the exporters only ever apply it to scalar leaves). -/
def Json.pyStr : Json → String
  | .null => "None"
  | .bool true => "True"
  | .bool false => "False"
  | .num n => toString n
  | .str s => s
  | .arr _ => "<list>"
  | .obj _ => "<dict>"

/-! ## Data models (src/models/schemas.py) -/

/-- Model of `ContentType` enum. -/
inductive ContentType where
  | movie : ContentType
  | tv : ContentType
deriving DecidableEq

/-- The string value of a `ContentType` member. -/
def ContentType.val : ContentType → String
  | .movie => "movie"
  | .tv => "tv"

/-- Model of `ExportFormat` enum. -/
inductive ExportFormat where
  | json : ExportFormat
  | txt : ExportFormat
  | sql : ExportFormat
  | csv : ExportFormat
  | xml : ExportFormat
deriving DecidableEq

structure ProductionCompany where
  id : Int
  name : String
  logo_path : Option String := none
  origin_country : Option String := none
deriving DecidableEq

structure Network where
  id : Int
  name : String
  logo_path : Option String := none
  origin_country : Option String := none
deriving DecidableEq

structure CastMember where
  id : Option Int := none
  name : String
  character : String
  profile_path : Option String := none
  order : Option Int := none
deriving DecidableEq

structure CrewMember where
  id : Option Int := none
  name : String
  job : String
  department : String
  profile_path : Option String := none
deriving DecidableEq

structure Genre where
  id : Int
  name : String
deriving DecidableEq

structure Video where
  id : String
  key : String
  name : String
  site : String
  type : String
deriving DecidableEq

structure Movie where
  id : Int
  title : String
  original_title : Option String := none
  original_language : Option String := none
  overview : Option String := none
  release_date : Option String := none
  runtime : Option Int := none
  genres : List Genre := []
  vote_average : Option Int := none
  vote_count : Option Int := none
  popularity : Option Int := none
  poster_path : Option String := none
  backdrop_path : Option String := none
  cast : List CastMember := []
  crew : List CrewMember := []
  tagline : Option String := none
  budget : Option Int := none
  revenue : Option Int := none
  status : Option String := none
  imdb_id : Option String := none
  homepage : Option String := none
  production_companies : List ProductionCompany := []
  production_countries : List (Option String) := []
  spoken_languages : List (Option String) := []
  videos : List Video := []
deriving DecidableEq

structure Episode where
  id : Int
  episode_number : Int
  season_number : Int
  name : String
  overview : Option String := none
  air_date : Option String := none
  runtime : Option Int := none
  vote_average : Option Int := none
  vote_count : Option Int := none
  still_path : Option String := none
  guest_stars : List CastMember := []
  crew : List CrewMember := []
  production_code : Option String := none
deriving DecidableEq

structure Season where
  id : Int
  season_number : Int
  name : String
  episode_count : Int
  air_date : Option String := none
  overview : Option String := none
  poster_path : Option String := none
  vote_average : Option Int := none
deriving DecidableEq

structure TVShow where
  id : Int
  name : String
  original_name : Option String := none
  original_language : Option String := none
  overview : Option String := none
  first_air_date : Option String := none
  last_air_date : Option String := none
  number_of_episodes : Option Int := none
  number_of_seasons : Option Int := none
  episode_run_time : List Int := []
  genres : List Genre := []
  vote_average : Option Int := none
  vote_count : Option Int := none
  popularity : Option Int := none
  poster_path : Option String := none
  backdrop_path : Option String := none
  cast : List CastMember := []
  crew : List CrewMember := []
  seasons : List Season := []
  status : Option String := none
  type : Option String := none
  tagline : Option String := none
  homepage : Option String := none
  in_production : Option Bool := none
  networks : List Network := []
  production_companies : List ProductionCompany := []
  origin_country : List String := []
  spoken_languages : List (Option String) := []
  episodes : List Episode := []
  videos : List Video := []
  created_by : List (Option String) := []
deriving DecidableEq

structure SearchResult where
  id : Int
  title : String
  media_type : ContentType
  release_date : Option String := none
  poster_path : Option String := none
  backdrop_path : Option String := none
  overview : Option String := none
  vote_average : Option Int := none
deriving DecidableEq

structure SearchResponse where
  results : List SearchResult
  total_results : Int
  total_pages : Int
deriving DecidableEq

/-- Model of `ExportConfig` (the `format` member does not influence any verified
behaviour of `prepare_data`, it selects the exporter at the API layer). -/
structure ExportConfig where
  format : ExportFormat := .json
  include_cast : Bool := true
  include_episodes : Bool := true
  include_images : Bool := true
  max_cast : Nat := 10
  filename_pattern : String := "\x7btitle\x7d_\x7bdate\x7d"
deriving DecidableEq

/-! ## `model_dump()` of the pydantic models

`model_dump()` returns a dict whose keys follow declaration order, with
nested models dumped recursively, `None` kept as `null` and enum members
replaced by their values. -/

def optStr : Option String → Json
  | none => .null
  | some s => .str s

def optNum : Option Int → Json
  | none => .null
  | some n => .num n

def optBool : Option Bool → Json
  | none => .null
  | some b => .bool b

def Genre.dump (g : Genre) : Json :=
  .obj [("id", .num g.id), ("name", .str g.name)]

def CastMember.dump (c : CastMember) : Json :=
  .obj [("id", optNum c.id), ("name", .str c.name),
        ("character", .str c.character),
        ("profile_path", optStr c.profile_path), ("order", optNum c.order)]

def CrewMember.dump (c : CrewMember) : Json :=
  .obj [("id", optNum c.id), ("name", .str c.name), ("job", .str c.job),
        ("department", .str c.department),
        ("profile_path", optStr c.profile_path)]

def ProductionCompany.dump (c : ProductionCompany) : Json :=
  .obj [("id", .num c.id), ("name", .str c.name),
        ("logo_path", optStr c.logo_path),
        ("origin_country", optStr c.origin_country)]

def Network.dump (n : Network) : Json :=
  .obj [("id", .num n.id), ("name", .str n.name),
        ("logo_path", optStr n.logo_path),
        ("origin_country", optStr n.origin_country)]

def Video.dump (v : Video) : Json :=
  .obj [("id", .str v.id), ("key", .str v.key), ("name", .str v.name),
        ("site", .str v.site), ("type", .str v.type)]

def Episode.dump (e : Episode) : Json :=
  .obj [("id", .num e.id), ("episode_number", .num e.episode_number),
        ("season_number", .num e.season_number), ("name", .str e.name),
        ("overview", optStr e.overview), ("air_date", optStr e.air_date),
        ("runtime", optNum e.runtime),
        ("vote_average", optNum e.vote_average),
        ("vote_count", optNum e.vote_count),
        ("still_path", optStr e.still_path),
        ("guest_stars", .arr (e.guest_stars.map CastMember.dump)),
        ("crew", .arr (e.crew.map CrewMember.dump)),
        ("production_code", optStr e.production_code)]

def Season.dump (s : Season) : Json :=
  .obj [("id", .num s.id), ("season_number", .num s.season_number),
        ("name", .str s.name), ("episode_count", .num s.episode_count),
        ("air_date", optStr s.air_date), ("overview", optStr s.overview),
        ("poster_path", optStr s.poster_path),
        ("vote_average", optNum s.vote_average)]

def Movie.model_dump (m : Movie) : List (String × Json) :=
  [("id", .num m.id), ("title", .str m.title),
   ("original_title", optStr m.original_title),
   ("original_language", optStr m.original_language),
   ("overview", optStr m.overview),
   ("release_date", optStr m.release_date),
   ("runtime", optNum m.runtime),
   ("genres", .arr (m.genres.map Genre.dump)),
   ("vote_average", optNum m.vote_average),
   ("vote_count", optNum m.vote_count),
   ("popularity", optNum m.popularity),
   ("poster_path", optStr m.poster_path),
   ("backdrop_path", optStr m.backdrop_path),
   ("cast", .arr (m.cast.map CastMember.dump)),
   ("crew", .arr (m.crew.map CrewMember.dump)),
   ("tagline", optStr m.tagline),
   ("budget", optNum m.budget),
   ("revenue", optNum m.revenue),
   ("status", optStr m.status),
   ("imdb_id", optStr m.imdb_id),
   ("homepage", optStr m.homepage),
   ("production_companies", .arr (m.production_companies.map ProductionCompany.dump)),
   ("production_countries", .arr (m.production_countries.map optStr)),
   ("spoken_languages", .arr (m.spoken_languages.map optStr)),
   ("videos", .arr (m.videos.map Video.dump))]

def TVShow.model_dump (t : TVShow) : List (String × Json) :=
  [("id", .num t.id), ("name", .str t.name),
   ("original_name", optStr t.original_name),
   ("original_language", optStr t.original_language),
   ("overview", optStr t.overview),
   ("first_air_date", optStr t.first_air_date),
   ("last_air_date", optStr t.last_air_date),
   ("number_of_episodes", optNum t.number_of_episodes),
   ("number_of_seasons", optNum t.number_of_seasons),
   ("episode_run_time", .arr (t.episode_run_time.map Json.num)),
   ("genres", .arr (t.genres.map Genre.dump)),
   ("vote_average", optNum t.vote_average),
   ("vote_count", optNum t.vote_count),
   ("popularity", optNum t.popularity),
   ("poster_path", optStr t.poster_path),
   ("backdrop_path", optStr t.backdrop_path),
   ("cast", .arr (t.cast.map CastMember.dump)),
   ("crew", .arr (t.crew.map CrewMember.dump)),
   ("seasons", .arr (t.seasons.map Season.dump)),
   ("status", optStr t.status),
   ("type", optStr t.type),
   ("tagline", optStr t.tagline),
   ("homepage", optStr t.homepage),
   ("in_production", optBool t.in_production),
   ("networks", .arr (t.networks.map Network.dump)),
   ("production_companies", .arr (t.production_companies.map ProductionCompany.dump)),
   ("origin_country", .arr (t.origin_country.map Json.str)),
   ("spoken_languages", .arr (t.spoken_languages.map optStr)),
   ("episodes", .arr (t.episodes.map Episode.dump)),
   ("videos", .arr (t.videos.map Video.dump)),
   ("created_by", .arr (t.created_by.map optStr))]

/-- An exporter argument element: `Union[Movie, TVShow]`. -/
inductive Item where
  | movie (m : Movie) : Item
  | tv (t : TVShow) : Item
deriving DecidableEq

def Item.model_dump : Item → List (String × Json)
  | .movie m => m.model_dump
  | .tv t => t.model_dump

/-- Model of `hasattr(data, 'title')`: true exactly for movies. -/
def Item.has_title : Item → Bool
  | .movie _ => true
  | .tv _ => false

/-- The full exporter argument: `Union[Movie, TVShow, List[...]]`. -/
inductive ExportInput where
  | single (item : Item) : ExportInput
  | many (items : List Item) : ExportInput
deriving DecidableEq

/-! ## `BaseExporter.prepare_data` (src/exporters/base.py) -/

/-- Python slice `xs[:n]` on a JSON list value (`prepare_data` only ever
slices the `"cast"` list, whose value is always a JSON array). -/
def jsonTake (n : Nat) : Json → Json
  | .arr l => .arr (l.take n)
  | j => j

/-- Model of `ep.pop("still_path", None)` applied to one episode dict. -/
def popStill : Json → Json
  | .obj o => .obj (dpop o "still_path")
  | j => j

/-- The cast block of `prepare_data`: drop the cast, or truncate it when
`max_cast` is truthy (nonzero). -/
def prepareCast (cfg : ExportConfig) (data : List (String × Json)) :
    List (String × Json) :=
  if !cfg.include_cast then dpop data "cast"
  else if cfg.max_cast ≠ 0 then
    dset data "cast" (jsonTake cfg.max_cast (dgetD data "cast" (.arr [])))
  else data

/-- The episodes block of `prepare_data`. -/
def prepareEpisodes (cfg : ExportConfig) (data : List (String × Json)) :
    List (String × Json) :=
  if !cfg.include_episodes then dpop data "episodes" else data

/-- The image block of `prepare_data`: pop the three top-level image
keys, then pop `still_path` from each episode dict in place. -/
def prepareImages (cfg : ExportConfig) (data : List (String × Json)) :
    List (String × Json) :=
  if !cfg.include_images then
    let d := dpop (dpop (dpop data "poster_path") "backdrop_path") "still_path"
    match dget d "episodes" with
    | some (.arr eps) => dset d "episodes" (.arr (eps.map popStill))
    | _ => d
  else data

/-- Model of `BaseExporter.prepare_data`: `model_dump()` then config-driven field
suppression, in source order (cast, episodes, image paths). -/
def prepare_data (cfg : ExportConfig) (item : Item) : List (String × Json) :=
  prepareImages cfg (prepareEpisodes cfg (prepareCast cfg item.model_dump))

/-! ## TMDB client (src/sources/tmdb.py): pure response processing

Raw upstream payloads are embedded as structures whose `Option` fields
model `dict.get` on possibly-absent keys; required fields correspond to
`data["key"]` indexing. -/

def BASE_URL : String := "https://api.themoviedb.org/3"

def IMAGE_BASE_URL : String := "https://image.tmdb.org/t/p"

/-- Model of `TMDBClient._img`: full image URL from an optional relative path
(`if not path: return None` treats both `None` and `""` as absent). -/
def img (path : Option String) (size : String := "w500") : Option String :=
  match path with
  | none => none
  | some p => if p = "" then none else some (IMAGE_BASE_URL ++ "/" ++ size ++ p)

structure RawCastEntry where
  id : Option Int := none
  name : Option String := none
  character : Option String := none
  profile_path : Option String := none
  order : Option Int := none
deriving DecidableEq

structure RawCrewEntry where
  id : Option Int := none
  name : Option String := none
  job : Option String := none
  department : Option String := none
  profile_path : Option String := none
deriving DecidableEq

structure RawCredits where
  cast : List RawCastEntry := []
  crew : List RawCrewEntry := []
deriving DecidableEq

structure RawVideo where
  id : String
  key : String
  name : String
  site : Option String := none
  type : String
deriving DecidableEq

structure RawVideos where
  results : List RawVideo := []
deriving DecidableEq

/-- Model of `TMDBClient._parse_cast` (`max_cast` defaults to 15): slice then map. -/
def parse_cast (credits : RawCredits) (max_cast : Nat := 15) : List CastMember :=
  (credits.cast.take max_cast).map fun c =>
    { id := c.id, name := c.name.getD "Unknown",
      character := c.character.getD "Unknown",
      profile_path := img c.profile_path, order := c.order }

/-- Model of `TMDBClient._parse_crew`: filter by the job allow-list when one is
given (`if jobs:` — `None` and `[]` both skip the filter), then the
first 10 are mapped (`for c in crew_list[:10]`). -/
def parse_crew (credits : RawCredits) (jobs : Option (List String) := none) :
    List CrewMember :=
  let crew_list := credits.crew
  let crew_list :=
    match jobs with
    | some js =>
      if js.isEmpty then crew_list
      else crew_list.filter fun c =>
        match c.job with
        | some j => decide (j ∈ js)
        | none => false
    | none => crew_list
  (crew_list.take 10).map fun c =>
    { id := c.id, name := c.name.getD "Unknown", job := c.job.getD "Unknown",
      department := c.department.getD "Unknown",
      profile_path := img c.profile_path }

/-- Model of `TMDBClient._parse_videos`: keep YouTube-hosted entries, cap at 5. -/
def parse_videos (videos : RawVideos) : List Video :=
  ((videos.results.filter fun v => v.site = some "YouTube").map fun v =>
    { id := v.id, key := v.key, name := v.name,
      site := v.site.getD "", type := v.type }).take 5

/-- Python `a or b` on optional strings (`""` and `None` are falsy). -/
def pyOr (a b : Option String) : Option String :=
  match a with
  | some s => if s = "" then b else some s
  | none => b

structure RawSearchItem where
  media_type : Option String := none
  id : Int
  title : Option String := none
  name : Option String := none
  release_date : Option String := none
  first_air_date : Option String := none
  poster_path : Option String := none
  backdrop_path : Option String := none
  overview : Option String := none
  vote_average : Option Int := none
deriving DecidableEq

structure RawSearchData where
  results : List RawSearchItem := []
  total_results : Option Int := none
  total_pages : Option Int := none
deriving DecidableEq

/-- Model of `item.get("title") or item.get("name", "Unknown")`. -/
def rawTitle (it : RawSearchItem) : String :=
  match it.title with
  | some s => if s = "" then it.name.getD "Unknown" else s
  | none => it.name.getD "Unknown"

/-- Model of `item.get("media_type", media_type) in ["movie", "tv"]`. -/
def searchKindOk (media_type : String) (item : RawSearchItem) : Bool :=
  let item_type := item.media_type.getD media_type
  item_type == "movie" || item_type == "tv"

/-- The `SearchResult` built from one kept raw item. -/
def searchConv (media_type : String) (item : RawSearchItem) : SearchResult :=
  let item_type := item.media_type.getD media_type
  { id := item.id
    title := rawTitle item
    media_type := if item_type = "movie" then ContentType.movie else ContentType.tv
    release_date := pyOr item.release_date item.first_air_date
    poster_path := img item.poster_path
    backdrop_path := img item.backdrop_path "w1280"
    overview := item.overview
    vote_average := item.vote_average }

/-- The response-processing part of `TMDBClient.search`: the loop over
`data["results"][:20]`, skipping non-movie/tv items (`continue`) and
appending converted results — i.e. a `filterMap` over the 20-slice. -/
def searchParse (media_type : String) (data : RawSearchData) : SearchResponse :=
  { results := (data.results.take 20).filterMap fun item =>
      if searchKindOk media_type item then some (searchConv media_type item)
      else none
    total_results := data.total_results.getD 0
    total_pages := data.total_pages.getD 0 }

structure RawGenre where
  id : Int
  name : String
deriving DecidableEq

structure RawCompany where
  id : Int
  name : String
  logo_path : Option String := none
  origin_country : Option String := none
deriving DecidableEq

structure RawLanguage where
  english_name : Option String := none
  name : Option String := none
deriving DecidableEq

structure RawCountry where
  name : Option String := none
deriving DecidableEq

def parse_genres (genres : List RawGenre) : List Genre :=
  genres.map fun g => { id := g.id, name := g.name }

def parse_production_companies (companies : List RawCompany) :
    List ProductionCompany :=
  companies.map fun c =>
    { id := c.id, name := c.name, logo_path := img c.logo_path "w200",
      origin_country := c.origin_country }

structure RawMovie where
  id : Int
  title : String
  original_title : Option String := none
  original_language : Option String := none
  overview : Option String := none
  release_date : Option String := none
  runtime : Option Int := none
  genres : List RawGenre := []
  vote_average : Option Int := none
  vote_count : Option Int := none
  popularity : Option Int := none
  poster_path : Option String := none
  backdrop_path : Option String := none
  credits : RawCredits := {}
  tagline : Option String := none
  budget : Option Int := none
  revenue : Option Int := none
  status : Option String := none
  imdb_id : Option String := none
  homepage : Option String := none
  production_companies : List RawCompany := []
  production_countries : List RawCountry := []
  spoken_languages : List RawLanguage := []
  videos : RawVideos := {}
deriving DecidableEq

/-- Model of `l.get("english_name") or l.get("name")` of `spoken_languages`. -/
def rawLanguageName (l : RawLanguage) : Option String :=
  pyOr l.english_name l.name

/-- Model of `TMDBClient.get_movie`, given the raw payload of the single request
it issues (`append_to_response=credits,videos`). -/
def getMovie (data : RawMovie) : Movie :=
  { id := data.id
    title := data.title
    original_title := data.original_title
    original_language := data.original_language
    overview := data.overview
    release_date := data.release_date
    runtime := data.runtime
    genres := parse_genres data.genres
    vote_average := data.vote_average
    vote_count := data.vote_count
    popularity := data.popularity
    poster_path := img data.poster_path
    backdrop_path := img data.backdrop_path "w1280"
    cast := parse_cast data.credits
    crew := parse_crew data.credits (some ["Director", "Writer", "Screenplay", "Producer"])
    tagline := data.tagline
    budget := data.budget
    revenue := data.revenue
    status := data.status
    imdb_id := data.imdb_id
    homepage := data.homepage
    production_companies := parse_production_companies data.production_companies
    production_countries := data.production_countries.map RawCountry.name
    spoken_languages := data.spoken_languages.map rawLanguageName
    videos := parse_videos data.videos }

structure RawEpisode where
  id : Int
  episode_number : Int
  name : String
  overview : Option String := none
  air_date : Option String := none
  runtime : Option Int := none
  vote_average : Option Int := none
  vote_count : Option Int := none
  still_path : Option String := none
  production_code : Option String := none
  guest_stars : List RawCastEntry := []
  crew : List RawCrewEntry := []
deriving DecidableEq

/-- Payload of a `/tv/{id}/season/{n}` request. -/
structure RawSeasonPayload where
  episodes : List RawEpisode := []
deriving DecidableEq

/-- Model of `TMDBClient.get_season_episodes`, given the raw season payload the
one request it issues returns; every produced episode carries the
requested `season_number`. -/
def get_season_episodes (payload : RawSeasonPayload) (season_number : Int) :
    List Episode :=
  payload.episodes.map fun ep =>
    { id := ep.id, episode_number := ep.episode_number,
      season_number := season_number, name := ep.name,
      overview := ep.overview, air_date := ep.air_date,
      runtime := ep.runtime, vote_average := ep.vote_average,
      vote_count := ep.vote_count,
      still_path := img ep.still_path "w300",
      production_code := ep.production_code,
      guest_stars := (ep.guest_stars.take 8).map fun g =>
        { id := g.id, name := g.name.getD "Unknown",
          character := g.character.getD "Unknown",
          profile_path := img g.profile_path },
      crew := ((ep.crew.filter fun c =>
          match c.job with
          | some j => decide (j ∈ ["Director", "Writer"])
          | none => false).map fun c =>
        { id := c.id, name := c.name.getD "Unknown",
          job := c.job.getD "Unknown",
          department := c.department.getD "Unknown",
          profile_path := img c.profile_path }).take 5 }

structure RawSeason where
  id : Int
  season_number : Int
  name : String
  episode_count : Int
  air_date : Option String := none
  overview : Option String := none
  poster_path : Option String := none
  vote_average : Option Int := none
deriving DecidableEq

structure RawTV where
  id : Int
  name : String
  original_name : Option String := none
  original_language : Option String := none
  overview : Option String := none
  first_air_date : Option String := none
  last_air_date : Option String := none
  number_of_episodes : Option Int := none
  number_of_seasons : Option Int := none
  episode_run_time : List Int := []
  genres : List RawGenre := []
  vote_average : Option Int := none
  vote_count : Option Int := none
  popularity : Option Int := none
  poster_path : Option String := none
  backdrop_path : Option String := none
  credits : RawCredits := {}
  seasons : List RawSeason := []
  status : Option String := none
  type : Option String := none
  tagline : Option String := none
  homepage : Option String := none
  in_production : Option Bool := none
  networks : List RawCompany := []
  production_companies : List RawCompany := []
  origin_country : List String := []
  spoken_languages : List RawLanguage := []
  videos : RawVideos := {}
  created_by : List RawCountry := []
deriving DecidableEq

def parse_networks (networks : List RawCompany) : List Network :=
  networks.map fun n =>
    { id := n.id, name := n.name, logo_path := img n.logo_path "w200",
      origin_country := n.origin_country }

/-- The season objects `get_tv_show` builds from `data["seasons"]`. -/
def parseSeasons (seasons : List RawSeason) : List Season :=
  seasons.map fun s =>
    { id := s.id, season_number := s.season_number, name := s.name,
      episode_count := s.episode_count, air_date := s.air_date,
      overview := s.overview, poster_path := img s.poster_path,
      vote_average := s.vote_average }

/-- The episode-collection loop of `TMDBClient.get_tv_show`: iterate the
seasons in upstream order, skip specials (`season_number <= 0`), fetch
each kept season and extend the flat list.  `fetch n` is the raw payload
the `/tv/{id}/season/{n}` request returns. -/
def collectEpisodes (seasons : List Season) (fetch : Int → RawSeasonPayload) :
    List Episode :=
  seasons.foldl
    (fun acc s =>
      if s.season_number > 0 then
        acc ++ get_season_episodes (fetch s.season_number) s.season_number
      else acc)
    []

/-- Model of `TMDBClient.get_tv_show`, given the raw payload of its main request
and the oracle `fetch` for the per-season requests. -/
def getTVShow (data : RawTV) (fetch : Int → RawSeasonPayload)
    (include_episodes : Bool := true) : TVShow :=
  let seasons := parseSeasons data.seasons
  { id := data.id
    name := data.name
    original_name := data.original_name
    original_language := data.original_language
    overview := data.overview
    first_air_date := data.first_air_date
    last_air_date := data.last_air_date
    number_of_episodes := data.number_of_episodes
    number_of_seasons := data.number_of_seasons
    episode_run_time := data.episode_run_time
    genres := parse_genres data.genres
    vote_average := data.vote_average
    vote_count := data.vote_count
    popularity := data.popularity
    poster_path := img data.poster_path
    backdrop_path := img data.backdrop_path "w1280"
    cast := parse_cast data.credits
    crew := parse_crew data.credits (some ["Executive Producer", "Creator"])
    seasons := seasons
    status := data.status
    type := data.type
    tagline := data.tagline
    homepage := data.homepage
    in_production := data.in_production
    networks := parse_networks data.networks
    production_companies := parse_production_companies data.production_companies
    origin_country := data.origin_country
    spoken_languages := data.spoken_languages.map rawLanguageName
    episodes := if include_episodes then collectEpisodes seasons fetch else []
    videos := parse_videos data.videos
    created_by := data.created_by.map RawCountry.name }

/-! ## `TMDBClient._request` retry logic

The outcome of each underlying HTTP attempt is an oracle
`script : Nat → ReqOutcome` (attempt index ↦ what that attempt does);
the loop `for attempt in range(3)` becomes a bounded recursion that also
records the `asyncio.sleep` durations (in seconds) it performs. -/

/-- What one underlying HTTP attempt does. -/
inductive ReqOutcome where
  | success (body : Nat) : ReqOutcome
  | httpError (status : Nat) : ReqOutcome
  | netError : ReqOutcome
deriving DecidableEq

/-- How `_request` terminates. -/
inductive ReqResult where
  | ok (body : Nat) : ReqResult
  | raisedHttp (status : Nat) : ReqResult
  | raisedNet : ReqResult
  | maxRetriesExceeded : ReqResult
deriving DecidableEq

/-- The body of `for attempt in range(3)` in `TMDBClient._request`,
returning the result together with the list of sleep durations. -/
def requestLoop (script : Nat → ReqOutcome) (attempt : Nat) :
    ReqResult × List Nat :=
  if attempt < 3 then
    match script attempt with
    | .success b => (.ok b, [])
    | .httpError s =>
      if s = 429 then
        let r := requestLoop script (attempt + 1)
        (r.1, 2 ^ attempt :: r.2)
      else (.raisedHttp s, [])
    | .netError =>
      if attempt < 2 then
        let r := requestLoop script (attempt + 1)
        (r.1, 1 :: r.2)
      else (.raisedNet, [])
  else (.maxRetriesExceeded, [])
termination_by 3 - attempt

/-- Model of `TMDBClient._request` over a script of attempt outcomes. -/
def request (script : Nat → ReqOutcome) : ReqResult × List Nat :=
  requestLoop script 0

/-! ## `json.dumps(..., indent=2, ensure_ascii=False)` and `json.loads`

The serializer mirrors the output of `json.dumps` with `indent=2` and
`ensure_ascii=False` (the call in `JSONExporter.export`): pretty-printed
arrays/objects, two-space indent, `", "`-free separators `(",", ": ")`,
short escapes for the usual control characters and `\u00XX` for the
rest.  The decoder models `json.loads` restricted to the fragment the
serializer emits (integral numerals). -/

def isWs (c : Char) : Bool := c = ' ' || c = '\n' || c = '\t' || c = '\r'

def digitChar (d : Nat) : Char :=
  match d with
  | 0 => '0' | 1 => '1' | 2 => '2' | 3 => '3' | 4 => '4'
  | 5 => '5' | 6 => '6' | 7 => '7' | 8 => '8' | _ => '9'

def hexChar (d : Nat) : Char :=
  match d with
  | 0 => '0' | 1 => '1' | 2 => '2' | 3 => '3' | 4 => '4'
  | 5 => '5' | 6 => '6' | 7 => '7' | 8 => '8' | 9 => '9'
  | 10 => 'a' | 11 => 'b' | 12 => 'c' | 13 => 'd' | 14 => 'e' | _ => 'f'

/-- Decimal digits of `n`, most significant first (`str(n)` for `n ≥ 0`). -/
def natChars (n : Nat) : List Char :=
  if n = 0 then ['0'] else (Nat.digits 10 n).reverse.map digitChar

/-- Python `str(i)` for an int. -/
def intChars (i : Int) : List Char :=
  if i < 0 then '-' :: natChars i.natAbs else natChars i.toNat

/-- The JSON escape of one character (`ensure_ascii=False`). -/
def escapeChar (c : Char) : List Char :=
  if c = '"' then ['\\', '"']
  else if c = '\\' then ['\\', '\\']
  else if c = '\n' then ['\\', 'n']
  else if c = '\r' then ['\\', 'r']
  else if c = '\t' then ['\\', 't']
  else if c.toNat = 8 then ['\\', 'b']
  else if c.toNat = 12 then ['\\', 'f']
  else if c.toNat < 32 then
    ['\\', 'u', '0', '0', hexChar (c.toNat / 16), hexChar (c.toNat % 16)]
  else [c]

/-- A JSON string literal. -/
def serStr (s : String) : List Char :=
  '"' :: (s.data.map escapeChar).flatten ++ ['"']

/-- The two-space indent at nesting level `lvl`. -/
def ind (lvl : Nat) : List Char := List.replicate (2 * lvl) ' '

mutual

/-- Body of `json.dumps` at nesting level `lvl`. -/
def serialize : Nat → Json → List Char
  | _, .null => ['n', 'u', 'l', 'l']
  | _, .bool true => ['t', 'r', 'u', 'e']
  | _, .bool false => ['f', 'a', 'l', 's', 'e']
  | _, .num i => intChars i
  | _, .str s => serStr s
  | _, .arr [] => ['[', ']']
  | lvl, .arr (e :: es) =>
    '[' :: '\n' :: (ind (lvl + 1) ++ serialize (lvl + 1) e ++
      serElems (lvl + 1) es ++ '\n' :: (ind lvl ++ [']']))
  | _, .obj [] => ['{', '}']
  | lvl, .obj ((k, v) :: ms) =>
    '{' :: '\n' :: (ind (lvl + 1) ++ serStr k ++ ':' :: ' ' ::
      (serialize (lvl + 1) v ++ serMembers (lvl + 1) ms ++
        '\n' :: (ind lvl ++ ['}'])))

/-- The remaining elements of a non-empty array, each preceded by
`",\n" ++ indent`. -/
def serElems : Nat → List Json → List Char
  | _, [] => []
  | lvl, e :: es => ',' :: '\n' :: (ind lvl ++ serialize lvl e ++ serElems lvl es)

/-- The remaining members of a non-empty object. -/
def serMembers : Nat → List (String × Json) → List Char
  | _, [] => []
  | lvl, (k, v) :: ms =>
    ',' :: '\n' :: (ind lvl ++ serStr k ++ ':' :: ' ' ::
      (serialize lvl v ++ serMembers lvl ms))

end

/-- Model of `json.dumps(v, indent=2, ensure_ascii=False)`. -/
def dumps (v : Json) : String := String.mk (serialize 0 v)

mutual

/-- Parser fuel sufficient for a value (see `parseValue`). -/
def Json.fuel : Json → Nat
  | .null => 1
  | .bool _ => 1
  | .num _ => 1
  | .str _ => 1
  | .arr l => 1 + Json.elemsFuel l
  | .obj m => 1 + Json.membersFuel m

def Json.elemsFuel : List Json → Nat
  | [] => 0
  | e :: es => 1 + max (Json.fuel e) (Json.elemsFuel es)

def Json.membersFuel : List (String × Json) → Nat
  | [] => 0
  | (_, v) :: ms => 1 + max (Json.fuel v) (Json.membersFuel ms)

end

/-- Skip JSON whitespace. -/
def skipWs : List Char → List Char
  | [] => []
  | c :: cs => if isWs c then skipWs cs else c :: cs

def isHexCh (c : Char) : Bool :=
  c.isDigit || ('a' ≤ c && c ≤ 'f') || ('A' ≤ c && c ≤ 'F')

def hexVal (c : Char) : Nat :=
  if c.isDigit then c.toNat - 48
  else if 'a' ≤ c && c ≤ 'f' then c.toNat - 87
  else c.toNat - 55

/-- Body of a JSON string literal (after the opening quote), returning
the unescaped characters and the input after the closing quote. -/
def parseStringBody : List Char → Option (List Char × List Char)
  | [] => none
  | c :: cs =>
    if c = '"' then some ([], cs)
    else if c = '\\' then
      match cs with
      | [] => none
      | e :: cs2 =>
        if e = 'u' then
          match cs2 with
          | h1 :: h2 :: h3 :: h4 :: cs3 =>
            if isHexCh h1 && isHexCh h2 && isHexCh h3 && isHexCh h4 then
              (parseStringBody cs3).map fun p =>
                (Char.ofNat (4096 * hexVal h1 + 256 * hexVal h2 +
                  16 * hexVal h3 + hexVal h4) :: p.1, p.2)
            else none
          | _ => none
        else if e = '"' then (parseStringBody cs2).map fun p => ('"' :: p.1, p.2)
        else if e = '\\' then (parseStringBody cs2).map fun p => ('\\' :: p.1, p.2)
        else if e = '/' then (parseStringBody cs2).map fun p => ('/' :: p.1, p.2)
        else if e = 'n' then (parseStringBody cs2).map fun p => ('\n' :: p.1, p.2)
        else if e = 'r' then (parseStringBody cs2).map fun p => ('\r' :: p.1, p.2)
        else if e = 't' then (parseStringBody cs2).map fun p => ('\t' :: p.1, p.2)
        else if e = 'b' then (parseStringBody cs2).map fun p => (Char.ofNat 8 :: p.1, p.2)
        else if e = 'f' then (parseStringBody cs2).map fun p => (Char.ofNat 12 :: p.1, p.2)
        else none
    else (parseStringBody cs).map fun p => (c :: p.1, p.2)

/-- Decimal value of a big-endian digit-character list. -/
def digitsVal (ds : List Char) : Nat :=
  ds.foldl (fun a c => 10 * a + (c.toNat - 48)) 0

/-- An integral JSON numeral. -/
def parseNumber (input : List Char) : Option (Json × List Char) :=
  match input with
  | '-' :: rest =>
    let ds := rest.takeWhile Char.isDigit
    if ds.isEmpty then none
    else some (.num (-(digitsVal ds : Int)), rest.dropWhile Char.isDigit)
  | _ =>
    let ds := input.takeWhile Char.isDigit
    if ds.isEmpty then none
    else some (.num (digitsVal ds), input.dropWhile Char.isDigit)

mutual

/-- A JSON value (fuelled recursive-descent parser). -/
def parseValue : Nat → List Char → Option (Json × List Char)
  | 0, _ => none
  | fuel + 1, input =>
    match skipWs input with
    | [] => none
    | c :: cs =>
      if c = '"' then
        (parseStringBody cs).map fun p => (.str (String.mk p.1), p.2)
      else if c = '[' then
        match skipWs cs with
        | ']' :: rest => some (.arr [], rest)
        | rest => (parseElems fuel rest).map fun p => (.arr p.1, p.2)
      else if c = '{' then
        match skipWs cs with
        | '}' :: rest => some (.obj [], rest)
        | rest => (parseMembers fuel rest).map fun p => (.obj p.1, p.2)
      else if c = 't' then
        match cs with
        | 'r' :: 'u' :: 'e' :: rest => some (.bool true, rest)
        | _ => none
      else if c = 'f' then
        match cs with
        | 'a' :: 'l' :: 's' :: 'e' :: rest => some (.bool false, rest)
        | _ => none
      else if c = 'n' then
        match cs with
        | 'u' :: 'l' :: 'l' :: rest => some (.null, rest)
        | _ => none
      else parseNumber (c :: cs)

/-- One or more comma-separated elements followed by `]`. -/
def parseElems : Nat → List Char → Option (List Json × List Char)
  | 0, _ => none
  | fuel + 1, input =>
    match parseValue fuel input with
    | none => none
    | some (v, rest) =>
      match skipWs rest with
      | ',' :: rest2 =>
        match parseElems fuel rest2 with
        | some (vs, rest3) => some (v :: vs, rest3)
        | none => none
      | ']' :: rest2 => some ([v], rest2)
      | _ => none

/-- One or more comma-separated `"key": value` members followed by the
closing brace. -/
def parseMembers : Nat → List Char → Option (List (String × Json) × List Char)
  | 0, _ => none
  | fuel + 1, input =>
    match skipWs input with
    | '"' :: cs =>
      match parseStringBody cs with
      | none => none
      | some (k, rest) =>
        match skipWs rest with
        | ':' :: rest2 =>
          match parseValue fuel rest2 with
          | none => none
          | some (v, rest3) =>
            match skipWs rest3 with
            | ',' :: rest4 =>
              match parseMembers fuel rest4 with
              | some (ms, rest5) => some ((String.mk k, v) :: ms, rest5)
              | none => none
            | '}' :: rest4 => some ([(String.mk k, v)], rest4)
            | _ => none
        | _ => none
    | _ => none

end

/-- Model of `json.loads` (on the fragment `dumps` emits): parse one value, then
allow only trailing whitespace. -/
def loads (s : String) : Option Json :=
  match parseValue (s.length + 1) s.data with
  | some (j, rest) => if skipWs rest = [] then some j else none
  | none => none

/-! ### Round-trip lemmas: numerals -/

theorem digitChar_toNat {d : Nat} (h : d < 10) : (digitChar d).toNat = 48 + d := by
  interval_cases d <;> rfl

theorem digitChar_isDigit {d : Nat} (h : d < 10) : (digitChar d).isDigit = true := by
  interval_cases d <;> rfl

theorem hexVal_hexChar {d : Nat} (h : d < 16) : hexVal (hexChar d) = d := by
  interval_cases d <;> rfl

theorem isHexCh_hexChar {d : Nat} (h : d < 16) : isHexCh (hexChar d) = true := by
  interval_cases d <;> rfl

theorem natChars_all_digit (n : Nat) : ∀ c ∈ natChars n, c.isDigit = true := by
  intro c hc
  unfold natChars at hc
  by_cases h : n = 0
  · simp [h] at hc; subst hc; rfl
  · simp only [h, if_false, List.mem_map, List.mem_reverse] at hc
    obtain ⟨d, hd, rfl⟩ := hc
    exact digitChar_isDigit (Nat.digits_lt_base (by norm_num) hd)

theorem natChars_ne_nil (n : Nat) : natChars n ≠ [] := by
  unfold natChars
  by_cases h : n = 0 <;> simp [h]
  exact Nat.digits_ne_nil_iff_ne_zero.mpr h

theorem digitsVal_eq_ofDigits (L : List Nat) (hL : ∀ d ∈ L, d < 10) :
    digitsVal (L.reverse.map digitChar) = Nat.ofDigits 10 L := by
  induction L with
  | nil => simp [digitsVal, Nat.ofDigits]
  | cons d L ih =>
    have hd : d < 10 := hL d (by simp)
    have hrest : ∀ x ∈ L, x < 10 := fun x hx => hL x (by simp [hx])
    simp only [List.reverse_cons, List.map_append, List.map_cons, List.map_nil]
    unfold digitsVal at *
    rw [List.foldl_append]
    simp only [List.foldl_cons, List.foldl_nil, ih hrest, Nat.ofDigits_cons,
      digitChar_toNat hd]
    omega

theorem digitsVal_natChars (n : Nat) : digitsVal (natChars n) = n := by
  unfold natChars
  by_cases h : n = 0
  · subst h; rfl
  · simp only [h, if_false]
    rw [digitsVal_eq_ofDigits _ (fun d hd => Nat.digits_lt_base (by norm_num) hd)]
    exact Nat.ofDigits_digits 10 n

theorem takeWhile_prefix_append (p : Char → Bool) (l r : List Char)
    (hl : ∀ c ∈ l, p c = true)
    (hr : ∀ c, r.head? = some c → p c = false) :
    (l ++ r).takeWhile p = l ∧ (l ++ r).dropWhile p = r := by
  induction l with
  | nil =>
    simp only [List.nil_append]
    cases r with
    | nil => simp
    | cons c r' =>
      have := hr c rfl
      simp [List.takeWhile_cons, List.dropWhile_cons, this]
  | cons a l ih =>
    have ha : p a = true := hl a (by simp)
    obtain ⟨h1, h2⟩ := ih (fun c hc => hl c (by simp [hc]))
    simp [List.takeWhile_cons, List.dropWhile_cons, ha, h1, h2]

/-- The guard that lets a serialized numeral be followed by `rest`. -/
def noLeadDigit : List Char → Prop
  | [] => True
  | c :: _ => c.isDigit = false

theorem noLeadDigit_head {rest : List Char} (h : noLeadDigit rest) :
    ∀ c, rest.head? = some c → c.isDigit = false := by
  intro c hc
  cases rest with
  | nil => simp at hc
  | cons a r => simp at hc; subst hc; exact h

theorem parseNumber_natChars (n : Nat) (rest : List Char) (h : noLeadDigit rest) :
    parseNumber (natChars n ++ rest) =
      some (.num (n : Int), rest) := by
  obtain ⟨d, ds, hshape⟩ : ∃ d ds, natChars n = d :: ds := by
    cases hnc : natChars n with
    | nil => exact absurd hnc (natChars_ne_nil n)
    | cons d ds => exact ⟨d, ds, rfl⟩
  have hdig : d.isDigit = true := by
    have := natChars_all_digit n d (by rw [hshape]; simp)
    exact this
  obtain ⟨htake, hdrop⟩ :=
    takeWhile_prefix_append Char.isDigit (natChars n) rest
      (natChars_all_digit n) (noLeadDigit_head h)
  unfold parseNumber
  rw [hshape] at htake hdrop ⊢
  split
  · rename_i rest1 heq
    exfalso
    have : d = '-' := by
      have := heq
      injection this.symm with h1 _
      exact h1.symm
    rw [this] at hdig
    exact absurd hdig (by decide)
  · simp only [List.cons_append] at htake hdrop ⊢
    rw [show d :: (ds ++ rest) = (d :: ds) ++ rest from rfl] at *
    rw [htake, hdrop]
    have hie : (d :: ds).isEmpty = false := rfl
    simp only [hie, if_false]
    rw [show d :: ds = natChars n from hshape.symm, digitsVal_natChars]
    simp

theorem parseNumber_intChars (i : Int) (rest : List Char) (h : noLeadDigit rest) :
    parseNumber (intChars i ++ rest) = some (.num i, rest) := by
  unfold intChars
  by_cases hneg : i < 0
  · simp only [hneg, if_true, List.cons_append]
    obtain ⟨htake, hdrop⟩ :=
      takeWhile_prefix_append Char.isDigit (natChars i.natAbs) rest
        (natChars_all_digit _) (noLeadDigit_head h)
    have hne : (natChars i.natAbs).isEmpty = false := by
      cases hnc : natChars i.natAbs with
      | nil => exact absurd hnc (natChars_ne_nil _)
      | cons d ds => rfl
    simp only [parseNumber, htake, hdrop, hne, if_false, digitsVal_natChars]
    rw [show -((i.natAbs : Nat) : Int) = i from by omega]
    simp
  · simp only [hneg, if_false]
    rw [parseNumber_natChars _ _ h]
    rw [show ((i.toNat : Nat) : Int) = i from by omega]

/-! ### Round-trip lemmas: string literals -/

theorem psb_quote (r : List Char) : parseStringBody ('"' :: r) = some ([], r) := by
  rw [parseStringBody.eq_def]; simp

theorem psb_other (c : Char) (r : List Char) (h1 : c ≠ '"') (h2 : c ≠ '\\') :
    parseStringBody (c :: r) = (parseStringBody r).map fun p => (c :: p.1, p.2) := by
  rw [parseStringBody.eq_def]; simp [h1, h2]

theorem psb_u (x1 x2 x3 x4 : Char) (r : List Char) :
    parseStringBody ('\\' :: 'u' :: x1 :: x2 :: x3 :: x4 :: r) =
      if isHexCh x1 && isHexCh x2 && isHexCh x3 && isHexCh x4 then
        (parseStringBody r).map fun p =>
          (Char.ofNat (4096 * hexVal x1 + 256 * hexVal x2 +
            16 * hexVal x3 + hexVal x4) :: p.1, p.2)
      else none := by
  rw [parseStringBody.eq_def]; simp

theorem psb_esc_quote (r : List Char) :
    parseStringBody ('\\' :: '"' :: r) =
      (parseStringBody r).map fun p => ('"' :: p.1, p.2) := by
  rw [parseStringBody.eq_def]; simp

theorem psb_esc_backslash (r : List Char) :
    parseStringBody ('\\' :: '\\' :: r) =
      (parseStringBody r).map fun p => ('\\' :: p.1, p.2) := by
  rw [parseStringBody.eq_def]; simp

theorem psb_esc_n (r : List Char) :
    parseStringBody ('\\' :: 'n' :: r) =
      (parseStringBody r).map fun p => ('\n' :: p.1, p.2) := by
  rw [parseStringBody.eq_def]; simp

theorem psb_esc_r (r : List Char) :
    parseStringBody ('\\' :: 'r' :: r) =
      (parseStringBody r).map fun p => ('\r' :: p.1, p.2) := by
  rw [parseStringBody.eq_def]; simp

theorem psb_esc_t (r : List Char) :
    parseStringBody ('\\' :: 't' :: r) =
      (parseStringBody r).map fun p => ('\t' :: p.1, p.2) := by
  rw [parseStringBody.eq_def]; simp

theorem psb_esc_b (r : List Char) :
    parseStringBody ('\\' :: 'b' :: r) =
      (parseStringBody r).map fun p => (Char.ofNat 8 :: p.1, p.2) := by
  rw [parseStringBody.eq_def]; simp

theorem psb_esc_f (r : List Char) :
    parseStringBody ('\\' :: 'f' :: r) =
      (parseStringBody r).map fun p => (Char.ofNat 12 :: p.1, p.2) := by
  rw [parseStringBody.eq_def]; simp

theorem parseStringBody_escape (c : Char) (r : List Char) :
    parseStringBody (escapeChar c ++ r) =
      (parseStringBody r).map fun p => (c :: p.1, p.2) := by
  by_cases h1 : c = '"'
  · subst h1; exact psb_esc_quote r
  · by_cases h2 : c = '\\'
    · subst h2; exact psb_esc_backslash r
    · by_cases h3 : c = '\n'
      · subst h3; exact psb_esc_n r
      · by_cases h4 : c = '\r'
        · subst h4; exact psb_esc_r r
        · by_cases h5 : c = '\t'
          · subst h5; exact psb_esc_t r
          · by_cases h6 : c.toNat = 8
            · have he : escapeChar c = ['\\', 'b'] := by
                simp [escapeChar, h1, h2, h3, h4, h5, h6]
              have hc : Char.ofNat 8 = c := by
                rw [← h6]; exact Char.ofNat_toNat c
              rw [he, show (['\\', 'b'] : List Char) ++ r = '\\' :: 'b' :: r from rfl,
                psb_esc_b, hc]
            · by_cases h7 : c.toNat = 12
              · have he : escapeChar c = ['\\', 'f'] := by
                  simp [escapeChar, h1, h2, h3, h4, h5, h6, h7]
                have hc : Char.ofNat 12 = c := by
                  rw [← h7]; exact Char.ofNat_toNat c
                rw [he, show (['\\', 'f'] : List Char) ++ r = '\\' :: 'f' :: r from rfl,
                  psb_esc_f, hc]
              · by_cases h8 : c.toNat < 32
                · have he : escapeChar c =
                      ['\\', 'u', '0', '0', hexChar (c.toNat / 16), hexChar (c.toNat % 16)] := by
                    simp [escapeChar, h1, h2, h3, h4, h5, h6, h7, h8]
                  have hdiv : c.toNat / 16 < 16 := by omega
                  have hmod : c.toNat % 16 < 16 := by omega
                  rw [he]
                  rw [show (['\\', 'u', '0', '0', hexChar (c.toNat / 16),
                        hexChar (c.toNat % 16)] : List Char) ++ r =
                      '\\' :: 'u' :: '0' :: '0' :: hexChar (c.toNat / 16) ::
                        hexChar (c.toNat % 16) :: r from rfl]
                  rw [psb_u]
                  have hhex : (isHexCh '0' && isHexCh '0' &&
                      isHexCh (hexChar (c.toNat / 16)) && isHexCh (hexChar (c.toNat % 16))) = true := by
                    rw [isHexCh_hexChar hdiv, isHexCh_hexChar hmod]
                    decide
                  rw [hhex, if_pos rfl]
                  have hval : 4096 * hexVal '0' + 256 * hexVal '0' +
                      16 * hexVal (hexChar (c.toNat / 16)) + hexVal (hexChar (c.toNat % 16))
                        = c.toNat := by
                    rw [hexVal_hexChar hdiv, hexVal_hexChar hmod]
                    have h0 : hexVal '0' = 0 := rfl
                    rw [h0]
                    omega
                  rw [hval, Char.ofNat_toNat]
                · have he : escapeChar c = [c] := by
                    simp [escapeChar, h1, h2, h3, h4, h5, h6, h7, h8]
                  rw [he, show ([c] : List Char) ++ r = c :: r from rfl]
                  exact psb_other c r h1 h2

theorem parseStringBody_escList (cs : List Char) (rest : List Char) :
    parseStringBody ((cs.map escapeChar).flatten ++ '"' :: rest) = some (cs, rest) := by
  induction cs with
  | nil =>
    simp only [List.map_nil, List.flatten_nil, List.nil_append]
    exact psb_quote rest
  | cons c cs ih =>
    simp only [List.map_cons, List.flatten_cons, List.append_assoc]
    rw [parseStringBody_escape, ih]
    rfl

/-! ### Round-trip lemmas: whitespace and dispatch -/

theorem skipWs_append_ws (l r : List Char) (hl : ∀ c ∈ l, isWs c = true) :
    skipWs (l ++ r) = skipWs r := by
  induction l with
  | nil => rfl
  | cons a l ih =>
    have ha := hl a (by simp)
    simp only [List.cons_append, skipWs, ha, if_true]
    exact ih (fun c hc => hl c (by simp [hc]))

theorem skipWs_not_ws (c : Char) (r : List Char) (h : isWs c = false) :
    skipWs (c :: r) = c :: r := by simp [skipWs, h]

theorem ind_all_ws (lvl : Nat) : ∀ c ∈ ind lvl, isWs c = true := by
  intro c hc
  unfold ind at hc
  rw [List.eq_of_mem_replicate hc]
  rfl

theorem isDigit_not_ws (c : Char) (h : c.isDigit = true) : isWs c = false := by
  by_cases h1 : c = ' '
  · rw [h1] at h; exact absurd h (by decide)
  · by_cases h2 : c = '\n'
    · rw [h2] at h; exact absurd h (by decide)
    · by_cases h3 : c = '\t'
      · rw [h3] at h; exact absurd h (by decide)
      · by_cases h4 : c = '\r'
        · rw [h4] at h; exact absurd h (by decide)
        · simp [isWs, h1, h2, h3, h4]

theorem ne_of_digit (c x : Char) (h : c.isDigit = true) (hx : x.isDigit = false) :
    c ≠ x := by
  intro he
  rw [he] at h
  exact absurd (h.symm.trans hx) (by decide)

theorem Json.fuel_pos (j : Json) : 1 ≤ Json.fuel j := by
  cases j <;> simp [Json.fuel]

/-- The serialized form never begins with whitespace, `]` or `}`. -/
theorem serialize_head (lvl : Nat) (j : Json) :
    ∃ c cs, serialize lvl j = c :: cs ∧ isWs c = false ∧ c ≠ ']' ∧ c ≠ '}' := by
  cases j with
  | null => exact ⟨'n', _, by rw [serialize], by decide, by decide, by decide⟩
  | bool b =>
    cases b with
    | false => exact ⟨'f', _, by rw [serialize], by decide, by decide, by decide⟩
    | true => exact ⟨'t', _, by rw [serialize], by decide, by decide, by decide⟩
  | num i =>
    by_cases hi : i < 0
    · refine ⟨'-', natChars i.natAbs, ?_, by decide, by decide, by decide⟩
      rw [serialize]; simp [intChars, hi]
    · cases hnc : natChars i.toNat with
      | nil => exact absurd hnc (natChars_ne_nil _)
      | cons c cs =>
        have hd : c.isDigit = true := natChars_all_digit _ c (by rw [hnc]; simp)
        refine ⟨c, cs, ?_, isDigit_not_ws c hd,
          ne_of_digit c ']' hd (by decide), ne_of_digit c '}' hd (by decide)⟩
        rw [serialize]; simp [intChars, hi, hnc]
  | str s =>
    refine ⟨'"', (s.data.map escapeChar).flatten ++ ['"'], ?_, by decide,
      by decide, by decide⟩
    rw [serialize, serStr]
    simp
  | arr l =>
    cases l with
    | nil => exact ⟨'[', _, by rw [serialize], by decide, by decide, by decide⟩
    | cons e es => exact ⟨'[', _, by rw [serialize], by decide, by decide, by decide⟩
  | obj m =>
    cases m with
    | nil => exact ⟨'{', _, by rw [serialize], by decide, by decide, by decide⟩
    | cons p ms =>
      obtain ⟨k, v⟩ := p
      exact ⟨'{', _, by rw [serialize], by decide, by decide, by decide⟩

theorem parseValue_ws (f : Nat) (pre x : List Char) (h : ∀ c ∈ pre, isWs c = true) :
    parseValue f (pre ++ x) = parseValue f x := by
  cases f with
  | zero => rfl
  | succ g =>
    conv_lhs => rw [parseValue.eq_def]
    conv_rhs => rw [parseValue.eq_def]
    simp only [skipWs_append_ws _ _ h]

theorem parseElems_ws (f : Nat) (pre x : List Char) (h : ∀ c ∈ pre, isWs c = true) :
    parseElems f (pre ++ x) = parseElems f x := by
  cases f with
  | zero => rfl
  | succ g =>
    conv_lhs => rw [parseElems.eq_def]
    conv_rhs => rw [parseElems.eq_def]
    simp only [parseValue_ws _ _ _ h]

theorem parseMembers_ws (f : Nat) (pre x : List Char) (h : ∀ c ∈ pre, isWs c = true) :
    parseMembers f (pre ++ x) = parseMembers f x := by
  cases f with
  | zero => rfl
  | succ g =>
    conv_lhs => rw [parseMembers.eq_def]
    conv_rhs => rw [parseMembers.eq_def]
    simp only [skipWs_append_ws _ _ h]

theorem parseValue_scalar_null (g lvl : Nat) (rest : List Char) :
    parseValue (g + 1) (serialize lvl .null ++ rest) = some (.null, rest) := by
  rw [show serialize lvl .null = ['n', 'u', 'l', 'l'] from by rw [serialize]]
  rw [parseValue.eq_def]
  simp +decide [skipWs]

theorem parseValue_scalar_true (g lvl : Nat) (rest : List Char) :
    parseValue (g + 1) (serialize lvl (.bool true) ++ rest) =
      some (.bool true, rest) := by
  rw [show serialize lvl (.bool true) = ['t', 'r', 'u', 'e'] from by rw [serialize]]
  rw [parseValue.eq_def]
  simp +decide [skipWs]

theorem parseValue_scalar_false (g lvl : Nat) (rest : List Char) :
    parseValue (g + 1) (serialize lvl (.bool false) ++ rest) =
      some (.bool false, rest) := by
  rw [show serialize lvl (.bool false) = ['f', 'a', 'l', 's', 'e'] from by
    rw [serialize]]
  rw [parseValue.eq_def]
  simp +decide [skipWs]

theorem parseValue_scalar_num (g lvl : Nat) (i : Int) (rest : List Char)
    (hguard : noLeadDigit rest) :
    parseValue (g + 1) (serialize lvl (.num i) ++ rest) = some (.num i, rest) := by
  obtain ⟨c, cs, hic, hprops⟩ :
      ∃ c cs, intChars i = c :: cs ∧ (c = '-' ∨ c.isDigit = true) := by
    unfold intChars
    by_cases hi : i < 0
    · exact ⟨'-', natChars i.natAbs, by simp [hi], Or.inl rfl⟩
    · simp only [hi, if_false]
      cases hnc : natChars i.toNat with
      | nil => exact absurd hnc (natChars_ne_nil _)
      | cons c cs =>
        exact ⟨c, cs, rfl, Or.inr (natChars_all_digit _ c (by rw [hnc]; simp))⟩
  have hnotws : isWs c = false := by
    rcases hprops with h | h
    · subst h; decide
    · exact isDigit_not_ws c h
  obtain ⟨h1, h2, h3, h4, h5, h6⟩ :
      c ≠ '"' ∧ c ≠ '[' ∧ c ≠ '{' ∧ c ≠ 't' ∧ c ≠ 'f' ∧ c ≠ 'n' := by
    rcases hprops with h | h
    · subst h
      exact ⟨by decide, by decide, by decide, by decide, by decide, by decide⟩
    · exact ⟨ne_of_digit _ _ h (by decide), ne_of_digit _ _ h (by decide),
        ne_of_digit _ _ h (by decide), ne_of_digit _ _ h (by decide),
        ne_of_digit _ _ h (by decide), ne_of_digit _ _ h (by decide)⟩
  rw [show serialize lvl (.num i) = intChars i from by rw [serialize]]
  rw [hic, List.cons_append, parseValue.eq_def]
  simp only [skipWs_not_ws _ _ hnotws, h1, h2, h3, h4, h5, h6, if_false]
  rw [← List.cons_append, ← hic]
  exact parseNumber_intChars i rest hguard

theorem parseValue_scalar_str (g lvl : Nat) (s : String) (rest : List Char) :
    parseValue (g + 1) (serialize lvl (.str s) ++ rest) = some (.str s, rest) := by
  rw [show serialize lvl (.str s) = serStr s from by rw [serialize]]
  rw [serStr, List.cons_append, parseValue.eq_def]
  simp +decide [skipWs]
  exact ⟨s.data, parseStringBody_escList s.data rest, rfl⟩

theorem skipWs_bracket (r : List Char) : skipWs ('[' :: r) = '[' :: r :=
  skipWs_not_ws _ _ (by decide)

theorem skipWs_brace (r : List Char) : skipWs ('{' :: r) = '{' :: r :=
  skipWs_not_ws _ _ (by decide)

theorem skipWs_quote (r : List Char) : skipWs ('"' :: r) = '"' :: r :=
  skipWs_not_ws _ _ (by decide)

theorem skipWs_colon (r : List Char) : skipWs (':' :: r) = ':' :: r :=
  skipWs_not_ws _ _ (by decide)

theorem skipWs_comma (r : List Char) : skipWs (',' :: r) = ',' :: r :=
  skipWs_not_ws _ _ (by decide)

theorem skipWs_nl (r : List Char) : skipWs ('\n' :: r) = skipWs r := rfl

/-- The serializer/parser round trip, proved for all three syntactic
levels simultaneously by strong induction on the parser fuel. -/
theorem parse_round (f : Nat) :
    (∀ (j : Json) (lvl : Nat) (rest : List Char), Json.fuel j ≤ f →
      noLeadDigit rest →
      parseValue f (serialize lvl j ++ rest) = some (j, rest)) ∧
    (∀ (e : Json) (es : List Json) (lvl l2 : Nat) (rest : List Char),
      Json.elemsFuel (e :: es) ≤ f →
      parseElems f (serialize lvl e ++ (serElems lvl es ++
        ('\n' :: (ind l2 ++ (']' :: rest))))) = some (e :: es, rest)) ∧
    (∀ (k : String) (v : Json) (ms : List (String × Json)) (lvl l2 : Nat)
      (rest : List Char),
      Json.membersFuel ((k, v) :: ms) ≤ f →
      parseMembers f (serStr k ++ ':' :: ' ' :: (serialize lvl v ++
        (serMembers lvl ms ++ ('\n' :: (ind l2 ++ ('}' :: rest)))))) =
        some ((k, v) :: ms, rest)) := by
  induction f using Nat.strong_induction_on with
  | _ f IH =>
  refine ⟨?_, ?_, ?_⟩
  · intro j lvl rest hfuel hguard
    have hpos := Json.fuel_pos j
    obtain ⟨g, rfl⟩ : ∃ g, f = g + 1 := ⟨f - 1, by omega⟩
    cases j with
    | null => exact parseValue_scalar_null g lvl rest
    | bool b =>
      cases b with
      | true => exact parseValue_scalar_true g lvl rest
      | false => exact parseValue_scalar_false g lvl rest
    | num i => exact parseValue_scalar_num g lvl i rest hguard
    | str s => exact parseValue_scalar_str g lvl s rest
    | arr l =>
      cases l with
      | nil =>
        rw [show serialize lvl (.arr []) = ['[', ']'] from by rw [serialize]]
        rw [parseValue.eq_def]
        simp +decide [skipWs]
      | cons e es =>
        have hfe : Json.elemsFuel (e :: es) ≤ g := by
          rw [show Json.fuel (.arr (e :: es)) = 1 + Json.elemsFuel (e :: es) from by
            rw [Json.fuel]] at hfuel
          omega
        have hinput : serialize lvl (.arr (e :: es)) ++ rest =
            '[' :: '\n' :: (ind (lvl + 1) ++ (serialize (lvl + 1) e ++
              (serElems (lvl + 1) es ++ ('\n' :: (ind lvl ++ (']' :: rest)))))) := by
          rw [serialize]
          simp [List.append_assoc]
        have hskip : skipWs (ind (lvl + 1) ++ (serialize (lvl + 1) e ++
            (serElems (lvl + 1) es ++ ('\n' :: (ind lvl ++ (']' :: rest)))))) =
            serialize (lvl + 1) e ++
              (serElems (lvl + 1) es ++ ('\n' :: (ind lvl ++ (']' :: rest)))) := by
          rw [skipWs_append_ws _ _ (ind_all_ws _)]
          obtain ⟨c0, cs0, hs0, hw0, _, _⟩ := serialize_head (lvl + 1) e
          rw [hs0, List.cons_append]
          exact skipWs_not_ws _ _ hw0
        obtain ⟨c0, cs0, hs0, hw0, hne0, _⟩ := serialize_head (lvl + 1) e
        have hE := (IH g (by omega)).2.1 e es (lvl + 1) lvl rest hfe
        rw [hs0, List.cons_append] at hE
        rw [hinput, parseValue.eq_def]
        simp +decide only [skipWs_bracket, skipWs_nl, hskip]
        rw [hs0, List.cons_append]
        simp [hne0, hE]
    | obj m =>
      cases m with
      | nil =>
        rw [show serialize lvl (.obj []) = ['{', '}'] from by rw [serialize]]
        rw [parseValue.eq_def]
        simp +decide [skipWs]
      | cons p ms =>
        obtain ⟨k, v⟩ := p
        have hfm : Json.membersFuel ((k, v) :: ms) ≤ g := by
          rw [show Json.fuel (.obj ((k, v) :: ms)) =
              1 + Json.membersFuel ((k, v) :: ms) from by rw [Json.fuel]] at hfuel
          omega
        have hinput : serialize lvl (.obj ((k, v) :: ms)) ++ rest =
            '{' :: '\n' :: (ind (lvl + 1) ++ (serStr k ++ ':' :: ' ' ::
              (serialize (lvl + 1) v ++ (serMembers (lvl + 1) ms ++
                ('\n' :: (ind lvl ++ ('}' :: rest))))))) := by
          rw [serialize, serStr]
          simp [List.append_assoc]
        have hskip : skipWs (ind (lvl + 1) ++ (serStr k ++ ':' :: ' ' ::
            (serialize (lvl + 1) v ++ (serMembers (lvl + 1) ms ++
              ('\n' :: (ind lvl ++ ('}' :: rest))))))) =
            serStr k ++ ':' :: ' ' :: (serialize (lvl + 1) v ++
              (serMembers (lvl + 1) ms ++ ('\n' :: (ind lvl ++ ('}' :: rest))))) := by
          rw [skipWs_append_ws _ _ (ind_all_ws _)]
          rw [serStr, List.cons_append]
          exact skipWs_not_ws _ _ (by decide)
        have hM := (IH g (by omega)).2.2 k v ms (lvl + 1) lvl rest hfm
        rw [show serStr k ++ ':' :: ' ' :: (serialize (lvl + 1) v ++
            (serMembers (lvl + 1) ms ++ ('\n' :: (ind lvl ++ ('}' :: rest))))) =
            '"' :: (((k.data.map escapeChar).flatten ++ ['"']) ++ ':' :: ' ' ::
              (serialize (lvl + 1) v ++ (serMembers (lvl + 1) ms ++
                ('\n' :: (ind lvl ++ ('}' :: rest)))))) from by
          rw [serStr]; simp [List.append_assoc]] at hM
        simp only [List.append_assoc, List.singleton_append] at hM
        rw [hinput, parseValue.eq_def]
        simp +decide only [skipWs_brace, skipWs_nl, hskip]
        rw [show serStr k ++ ':' :: ' ' :: (serialize (lvl + 1) v ++
            (serMembers (lvl + 1) ms ++ ('\n' :: (ind lvl ++ ('}' :: rest))))) =
            '"' :: (((k.data.map escapeChar).flatten ++ ['"']) ++ ':' :: ' ' ::
              (serialize (lvl + 1) v ++ (serMembers (lvl + 1) ms ++
                ('\n' :: (ind lvl ++ ('}' :: rest)))))) from by
          rw [serStr]; simp [List.append_assoc]]
        simp +decide [hM]
  · intro e es lvl l2 rest hfe
    have hfe1 : 1 ≤ Json.elemsFuel (e :: es) := by
      rw [Json.elemsFuel]; omega
    obtain ⟨g, rfl⟩ : ∃ g, f = g + 1 := ⟨f - 1, by omega⟩
    have hcomp : Json.fuel e ≤ g ∧ Json.elemsFuel es ≤ g := by
      rw [show Json.elemsFuel (e :: es) =
          1 + max (Json.fuel e) (Json.elemsFuel es) from by rw [Json.elemsFuel]] at hfe
      have h1 : Json.fuel e ≤ max (Json.fuel e) (Json.elemsFuel es) :=
        Nat.le_max_left _ _
      have h2 : Json.elemsFuel es ≤ max (Json.fuel e) (Json.elemsFuel es) :=
        Nat.le_max_right _ _
      omega
    have hguard : noLeadDigit (serElems lvl es ++ ('\n' :: (ind l2 ++ (']' :: rest)))) := by
      cases es with
      | nil =>
        rw [show serElems lvl ([] : List Json) = [] from by rw [serElems]]
        rw [List.nil_append]
        exact (by decide : ('\n').isDigit = false)
      | cons e2 es2 =>
        rw [show serElems lvl (e2 :: es2) = ',' :: '\n' ::
            (ind lvl ++ serialize lvl e2 ++ serElems lvl es2) from by rw [serElems]]
        rw [List.cons_append]
        exact (by decide : (',').isDigit = false)
    have hA := (IH g (by omega)).1 e lvl
      (serElems lvl es ++ ('\n' :: (ind l2 ++ (']' :: rest)))) hcomp.1 hguard
    rw [parseElems.eq_def]
    simp only [hA]
    cases es with
    | nil =>
      rw [show serElems lvl ([] : List Json) = [] from by rw [serElems]]
      rw [List.nil_append]
      rw [show skipWs ('\n' :: (ind l2 ++ (']' :: rest))) =
          skipWs (ind l2 ++ (']' :: rest)) from rfl]
      rw [skipWs_append_ws _ _ (ind_all_ws _), skipWs_not_ws _ _ (by decide)]
      simp +decide
    | cons e2 es2 =>
      rw [show serElems lvl (e2 :: es2) = ',' :: '\n' ::
          (ind lvl ++ serialize lvl e2 ++ serElems lvl es2) from by rw [serElems]]
      have hE2 := (IH g (by omega)).2.1 e2 es2 lvl l2 rest hcomp.2
      have hws : parseElems g ('\n' :: (ind lvl ++ (serialize lvl e2 ++
          (serElems lvl es2 ++ ('\n' :: (ind l2 ++ (']' :: rest))))))) =
          parseElems g (serialize lvl e2 ++
            (serElems lvl es2 ++ ('\n' :: (ind l2 ++ (']' :: rest))))) := by
        rw [show ('\n' :: (ind lvl ++ (serialize lvl e2 ++
            (serElems lvl es2 ++ ('\n' :: (ind l2 ++ (']' :: rest))))))) =
            ('\n' :: ind lvl) ++ (serialize lvl e2 ++
              (serElems lvl es2 ++ ('\n' :: (ind l2 ++ (']' :: rest))))) from by
          simp]
        refine parseElems_ws g _ _ ?_
        intro c hc
        rcases List.mem_cons.mp hc with h | h
        · subst h; rfl
        · exact ind_all_ws _ c h
      rw [show skipWs ((',' :: '\n' :: (ind lvl ++ serialize lvl e2 ++
          serElems lvl es2)) ++ ('\n' :: (ind l2 ++ (']' :: rest)))) =
          (',' :: '\n' :: (ind lvl ++ serialize lvl e2 ++ serElems lvl es2)) ++
            ('\n' :: (ind l2 ++ (']' :: rest))) from by
        rw [List.cons_append]
        exact skipWs_not_ws _ _ (by decide)]
      rw [show (',' :: '\n' :: (ind lvl ++ serialize lvl e2 ++ serElems lvl es2)) ++
          ('\n' :: (ind l2 ++ (']' :: rest))) =
          ',' :: ('\n' :: (ind lvl ++ (serialize lvl e2 ++
            (serElems lvl es2 ++ ('\n' :: (ind l2 ++ (']' :: rest))))))) from by
        simp [List.append_assoc]]
      simp [hws, hE2]
  · intro k v ms lvl l2 rest hfm
    have hfm1 : 1 ≤ Json.membersFuel ((k, v) :: ms) := by
      rw [Json.membersFuel]; omega
    obtain ⟨g, rfl⟩ : ∃ g, f = g + 1 := ⟨f - 1, by omega⟩
    have hcomp : Json.fuel v ≤ g ∧ Json.membersFuel ms ≤ g := by
      rw [show Json.membersFuel ((k, v) :: ms) =
          1 + max (Json.fuel v) (Json.membersFuel ms) from by rw [Json.membersFuel]] at hfm
      have h1 : Json.fuel v ≤ max (Json.fuel v) (Json.membersFuel ms) :=
        Nat.le_max_left _ _
      have h2 : Json.membersFuel ms ≤ max (Json.fuel v) (Json.membersFuel ms) :=
        Nat.le_max_right _ _
      omega
    rw [parseMembers.eq_def]
    rw [show serStr k ++ ':' :: ' ' :: (serialize lvl v ++
        (serMembers lvl ms ++ ('\n' :: (ind l2 ++ ('}' :: rest))))) =
        '"' :: (((k.data.map escapeChar).flatten ++ ['"']) ++ ':' :: ' ' ::
          (serialize lvl v ++ (serMembers lvl ms ++
            ('\n' :: (ind l2 ++ ('}' :: rest)))))) from by
      rw [serStr]; simp [List.append_assoc]]
    have hK : parseStringBody (((k.data.map escapeChar).flatten ++ ['"']) ++
        ':' :: ' ' :: (serialize lvl v ++ (serMembers lvl ms ++
          ('\n' :: (ind l2 ++ ('}' :: rest)))))) =
        some (k.data, ':' :: ' ' :: (serialize lvl v ++ (serMembers lvl ms ++
          ('\n' :: (ind l2 ++ ('}' :: rest)))))) := by
      rw [List.append_assoc, List.singleton_append]
      exact parseStringBody_escList k.data _
    have hguard : noLeadDigit (serMembers lvl ms ++ ('\n' :: (ind l2 ++ ('}' :: rest)))) := by
      cases ms with
      | nil =>
        rw [show serMembers lvl ([] : List (String × Json)) = [] from by rw [serMembers]]
        rw [List.nil_append]
        exact (by decide : ('\n').isDigit = false)
      | cons p ms2 =>
        obtain ⟨k2, v2⟩ := p
        rw [show serMembers lvl ((k2, v2) :: ms2) = ',' :: '\n' ::
            (ind lvl ++ serStr k2 ++ ':' :: ' ' ::
              (serialize lvl v2 ++ serMembers lvl ms2)) from by rw [serMembers]]
        rw [List.cons_append]
        exact (by decide : (',').isDigit = false)
    have hA : parseValue g (' ' :: (serialize lvl v ++ (serMembers lvl ms ++
        ('\n' :: (ind l2 ++ ('}' :: rest)))))) =
        some (v, serMembers lvl ms ++ ('\n' :: (ind l2 ++ ('}' :: rest)))) := by
      rw [show (' ' :: (serialize lvl v ++ (serMembers lvl ms ++
          ('\n' :: (ind l2 ++ ('}' :: rest)))))) =
          [' '] ++ (serialize lvl v ++ (serMembers lvl ms ++
            ('\n' :: (ind l2 ++ ('}' :: rest))))) from by simp]
      rw [parseValue_ws g _ _ (by intro c hc; simp at hc; subst hc; rfl)]
      exact (IH g (by omega)).1 v lvl _ hcomp.1 hguard
    simp +decide only [skipWs_quote, hK, skipWs_colon, hA]
    cases ms with
    | nil =>
      rw [show serMembers lvl ([] : List (String × Json)) = [] from by rw [serMembers]]
      rw [List.nil_append]
      rw [show skipWs ('\n' :: (ind l2 ++ ('}' :: rest))) =
          skipWs (ind l2 ++ ('}' :: rest)) from rfl]
      rw [skipWs_append_ws _ _ (ind_all_ws _), skipWs_not_ws _ _ (by decide)]
      simp +decide
    | cons p ms2 =>
      obtain ⟨k2, v2⟩ := p
      rw [show serMembers lvl ((k2, v2) :: ms2) = ',' :: '\n' ::
          (ind lvl ++ serStr k2 ++ ':' :: ' ' ::
            (serialize lvl v2 ++ serMembers lvl ms2)) from by rw [serMembers]]
      have hM2 := (IH g (by omega)).2.2 k2 v2 ms2 lvl l2 rest hcomp.2
      have hws : parseMembers g ('\n' :: (ind lvl ++ (serStr k2 ++ ':' :: ' ' ::
          (serialize lvl v2 ++ (serMembers lvl ms2 ++
            ('\n' :: (ind l2 ++ ('}' :: rest)))))))) =
          parseMembers g (serStr k2 ++ ':' :: ' ' ::
            (serialize lvl v2 ++ (serMembers lvl ms2 ++
              ('\n' :: (ind l2 ++ ('}' :: rest)))))) := by
        rw [show ('\n' :: (ind lvl ++ (serStr k2 ++ ':' :: ' ' ::
            (serialize lvl v2 ++ (serMembers lvl ms2 ++
              ('\n' :: (ind l2 ++ ('}' :: rest)))))))) =
            ('\n' :: ind lvl) ++ (serStr k2 ++ ':' :: ' ' ::
              (serialize lvl v2 ++ (serMembers lvl ms2 ++
                ('\n' :: (ind l2 ++ ('}' :: rest)))))) from by simp]
        refine parseMembers_ws g _ _ ?_
        intro c hc
        rcases List.mem_cons.mp hc with h | h
        · subst h; rfl
        · exact ind_all_ws _ c h
      rw [show skipWs ((',' :: '\n' :: (ind lvl ++ serStr k2 ++ ':' :: ' ' ::
          (serialize lvl v2 ++ serMembers lvl ms2))) ++
          ('\n' :: (ind l2 ++ ('}' :: rest)))) =
          (',' :: '\n' :: (ind lvl ++ serStr k2 ++ ':' :: ' ' ::
            (serialize lvl v2 ++ serMembers lvl ms2))) ++
            ('\n' :: (ind l2 ++ ('}' :: rest))) from by
        rw [List.cons_append]
        exact skipWs_not_ws _ _ (by decide)]
      rw [show (',' :: '\n' :: (ind lvl ++ serStr k2 ++ ':' :: ' ' ::
          (serialize lvl v2 ++ serMembers lvl ms2))) ++
          ('\n' :: (ind l2 ++ ('}' :: rest))) =
          ',' :: ('\n' :: (ind lvl ++ (serStr k2 ++ ':' :: ' ' ::
            (serialize lvl v2 ++ (serMembers lvl ms2 ++
              ('\n' :: (ind l2 ++ ('}' :: rest)))))))) from by
        simp [List.append_assoc]]
      simp [hws, hM2]

theorem intChars_ne_nil (i : Int) : intChars i ≠ [] := by
  unfold intChars
  by_cases hi : i < 0
  · simp [hi]
  · simp only [hi, if_false]
    exact natChars_ne_nil _

/-- The fuel a value needs never exceeds the length of its serialization
(so the fuel `loads` passes, input length + 1, always suffices). -/
theorem fuel_le_serialize_length (n : Nat) :
    (∀ j lvl, Json.fuel j ≤ n → Json.fuel j ≤ (serialize lvl j).length) ∧
    (∀ es lvl, Json.elemsFuel es ≤ n →
      Json.elemsFuel es ≤ (serElems lvl es).length) ∧
    (∀ ms lvl, Json.membersFuel ms ≤ n →
      Json.membersFuel ms ≤ (serMembers lvl ms).length) := by
  induction n using Nat.strong_induction_on with
  | _ n IH =>
  refine ⟨?_, ?_, ?_⟩
  · intro j lvl hle
    cases j with
    | null => rw [serialize]; rw [Json.fuel]; simp
    | bool b =>
      cases b with
      | true => rw [serialize]; rw [Json.fuel]; simp
      | false => rw [serialize]; rw [Json.fuel]; simp
    | num i =>
      rw [serialize]; rw [Json.fuel]
      have := intChars_ne_nil i
      cases h : intChars i with
      | nil => exact absurd h this
      | cons c cs => simp [h]
    | str s =>
      rw [serialize]; rw [Json.fuel]
      rw [serStr]
      simp
    | arr l =>
      cases l with
      | nil => rw [serialize]; rw [Json.fuel]; rw [Json.elemsFuel]; simp
      | cons e es =>
        have heq : Json.fuel (.arr (e :: es)) = 1 + Json.elemsFuel (e :: es) := by
          rw [Json.fuel]
        have heq2 : Json.elemsFuel (e :: es) =
            1 + max (Json.fuel e) (Json.elemsFuel es) := by rw [Json.elemsFuel]
        have hfe : Json.fuel e < n := by rw [heq, heq2] at hle; omega
        have hfes : Json.elemsFuel es < n := by rw [heq, heq2] at hle; omega
        have ihe := (IH (Json.fuel e) hfe).1 e (lvl + 1) le_rfl
        have ihes := (IH (Json.elemsFuel es) hfes).2.1 es (lvl + 1) le_rfl
        rw [serialize]
        rw [heq, heq2]
        simp only [List.length_cons, List.length_append, ind,
          List.length_replicate]
        omega
    | obj m =>
      cases m with
      | nil => rw [serialize]; rw [Json.fuel]; rw [Json.membersFuel]; simp
      | cons p ms =>
        obtain ⟨k, v⟩ := p
        have heq : Json.fuel (.obj ((k, v) :: ms)) =
            1 + Json.membersFuel ((k, v) :: ms) := by rw [Json.fuel]
        have heq2 : Json.membersFuel ((k, v) :: ms) =
            1 + max (Json.fuel v) (Json.membersFuel ms) := by rw [Json.membersFuel]
        have hfv : Json.fuel v < n := by rw [heq, heq2] at hle; omega
        have hfms : Json.membersFuel ms < n := by rw [heq, heq2] at hle; omega
        have ihv := (IH (Json.fuel v) hfv).1 v (lvl + 1) le_rfl
        have ihms := (IH (Json.membersFuel ms) hfms).2.2 ms (lvl + 1) le_rfl
        rw [serialize]
        rw [heq, heq2]
        simp only [List.length_cons, List.length_append, ind,
          List.length_replicate, serStr]
        omega
  · intro es lvl hle
    cases es with
    | nil => rw [Json.elemsFuel]; simp
    | cons e es =>
      have heq2 : Json.elemsFuel (e :: es) =
          1 + max (Json.fuel e) (Json.elemsFuel es) := by rw [Json.elemsFuel]
      have hfe : Json.fuel e < n := by
        rw [heq2] at hle
        have := Json.fuel_pos e
        omega
      have hfes : Json.elemsFuel es < n := by rw [heq2] at hle; omega
      have ihe := (IH (Json.fuel e) hfe).1 e lvl le_rfl
      have ihes := (IH (Json.elemsFuel es) hfes).2.1 es lvl le_rfl
      rw [serElems]
      rw [heq2]
      simp only [List.length_cons, List.length_append, ind,
        List.length_replicate]
      omega
  · intro ms lvl hle
    cases ms with
    | nil => rw [Json.membersFuel]; simp
    | cons p ms =>
      obtain ⟨k, v⟩ := p
      have heq2 : Json.membersFuel ((k, v) :: ms) =
          1 + max (Json.fuel v) (Json.membersFuel ms) := by rw [Json.membersFuel]
      have hfv : Json.fuel v < n := by
        rw [heq2] at hle
        have := Json.fuel_pos v
        omega
      have hfms : Json.membersFuel ms < n := by rw [heq2] at hle; omega
      have ihv := (IH (Json.fuel v) hfv).1 v lvl le_rfl
      have ihms := (IH (Json.membersFuel ms) hfms).2.2 ms lvl le_rfl
      rw [serMembers]
      rw [heq2]
      simp only [List.length_cons, List.length_append, ind,
        List.length_replicate, serStr]
      omega

/-- Decoding inverts encoding (`json.loads` of `json.dumps`) on every JSON value. -/
theorem loads_dumps (j : Json) : loads (dumps j) = some j := by
  unfold loads dumps
  have hdata : (String.mk (serialize 0 j)).data = serialize 0 j := rfl
  have hlen : (String.mk (serialize 0 j)).length = (serialize 0 j).length := rfl
  rw [hdata, hlen]
  have hfle := (fuel_le_serialize_length (Json.fuel j)).1 j 0 le_rfl
  have h := (parse_round ((serialize 0 j).length + 1)).1 j 0 [] (by omega)
    (by trivial)
  rw [List.append_nil] at h
  rw [h]
  simp [skipWs]

/-! ## Exporters (src/exporters/) -/

/-- Model of `'title' in prepared` (dict membership). -/
def dhas (d : List (String × Json)) (k : String) : Bool :=
  (dget d k).isSome

/-- The elements of a JSON array value (the exporters only iterate
values that are arrays). -/
def jsonElems : Json → List Json
  | .arr l => l
  | _ => []

/-- Model of `g.get(k, dflt)` on a JSON value standing for a dict. -/
def objGetD (j : Json) (k : String) (dflt : Json) : Json :=
  match j with
  | .obj o => dgetD o k dflt
  | _ => dflt

/-- Model of `JSONExporter.export`: `prepare_data` per item, then
`json.dumps(export_data, indent=2, ensure_ascii=False)`. -/
def jsonExport (cfg : ExportConfig) (data : ExportInput) : String :=
  match data with
  | .single item => dumps (.obj (prepare_data cfg item))
  | .many items => dumps (.arr (items.map fun it => .obj (prepare_data cfg it)))

/-! ### CSV exporter (src/exporters/csv_exporter.py)

`csv.DictWriter` with the default dialect: comma delimiter, minimal
quoting with `"` (doubling embedded quotes), `\r\n` record terminator,
`None` written as the empty field and other scalars via `str`. -/

def csvQuoteNeeded (s : String) : Bool :=
  s.data.any fun c => c = ',' || c = '"' || c = '\n' || c = '\r'

def csvEscape (s : String) : String :=
  String.mk ((s.data.map fun c => if c = '"' then ['"', '"'] else [c]).flatten)

/-- One CSV field under QUOTE_MINIMAL. -/
def csvField (s : String) : String :=
  if csvQuoteNeeded s then "\"" ++ csvEscape s ++ "\"" else s

/-- Model of `csv` field conversion of a cell value. -/
def csvStr : Json → String
  | .null => ""
  | v => v.pyStr

/-- One CSV record: fields joined by `,`, terminated by `\r\n`. -/
def csvLine (fields : List String) : String :=
  String.intercalate "," (fields.map csvField) ++ "\r\n"

/-- Model of `', '.join(g.get('name', '') for g in v)`. -/
def joinNames (v : Json) : String :=
  String.intercalate ", "
    ((jsonElems v).map fun g => (objGetD g "name" (.str "")).pyStr)

def movieFieldnames : List String :=
  ["id", "title", "original_title", "release_date", "runtime", "genres",
   "vote_average", "vote_count", "popularity", "overview", "tagline",
   "status", "budget", "revenue", "poster_path", "cast"]

def tvFieldnames : List String :=
  ["id", "name", "original_name", "first_air_date", "last_air_date",
   "number_of_seasons", "number_of_episodes", "genres", "vote_average",
   "vote_count", "popularity", "overview", "tagline", "status",
   "poster_path", "cast"]

/-- Model of `CSVExporter._movie_to_row`, rendered in `movieFieldnames` order. -/
def movie_to_row (movie : List (String × Json)) : List String :=
  [csvStr (dgetD movie "id" (.str "")),
   csvStr (dgetD movie "title" (.str "")),
   csvStr (dgetD movie "original_title" (.str "")),
   csvStr (dgetD movie "release_date" (.str "")),
   csvStr (dgetD movie "runtime" (.str "")),
   joinNames (dgetD movie "genres" (.arr [])),
   csvStr (dgetD movie "vote_average" (.str "")),
   csvStr (dgetD movie "vote_count" (.str "")),
   csvStr (dgetD movie "popularity" (.str "")),
   csvStr (dgetD movie "overview" (.str "")),
   csvStr (dgetD movie "tagline" (.str "")),
   csvStr (dgetD movie "status" (.str "")),
   csvStr (dgetD movie "budget" (.str "")),
   csvStr (dgetD movie "revenue" (.str "")),
   csvStr (dgetD movie "poster_path" (.str "")),
   joinNames (dgetD movie "cast" (.arr []))]

/-- Model of `CSVExporter._tv_to_row`, rendered in `tvFieldnames` order. -/
def tv_to_row (tv : List (String × Json)) : List String :=
  [csvStr (dgetD tv "id" (.str "")),
   csvStr (dgetD tv "name" (.str "")),
   csvStr (dgetD tv "original_name" (.str "")),
   csvStr (dgetD tv "first_air_date" (.str "")),
   csvStr (dgetD tv "last_air_date" (.str "")),
   csvStr (dgetD tv "number_of_seasons" (.str "")),
   csvStr (dgetD tv "number_of_episodes" (.str "")),
   joinNames (dgetD tv "genres" (.arr [])),
   csvStr (dgetD tv "vote_average" (.str "")),
   csvStr (dgetD tv "vote_count" (.str "")),
   csvStr (dgetD tv "popularity" (.str "")),
   csvStr (dgetD tv "overview" (.str "")),
   csvStr (dgetD tv "tagline" (.str "")),
   csvStr (dgetD tv "status" (.str "")),
   csvStr (dgetD tv "poster_path" (.str "")),
   joinNames (dgetD tv "cast" (.arr []))]

def epFieldnames : List String :=
  ["tv_id", "tv_name", "season_number", "episode_number", "name",
   "air_date", "runtime", "vote_average", "overview"]

/-- One row of the episodes block. -/
def episode_row (tv : List (String × Json)) (ep : Json) : List String :=
  [csvStr (dgetD tv "id" (.str "")),
   csvStr (dgetD tv "name" (.str "")),
   csvStr (objGetD ep "season_number" (.str "")),
   csvStr (objGetD ep "episode_number" (.str "")),
   csvStr (objGetD ep "name" (.str "")),
   csvStr (objGetD ep "air_date" (.str "")),
   csvStr (objGetD ep "runtime" (.str "")),
   csvStr (objGetD ep "vote_average" (.str "")),
   csvStr (objGetD ep "overview" (.str ""))]

/-- Model of `CSVExporter._episodes_to_csv`. -/
def episodes_to_csv (tv : List (String × Json)) : String :=
  let epsVal := dgetD tv "episodes" .null
  if !epsVal.truthy then ""
  else
    csvLine epFieldnames ++
      String.join ((jsonElems epsVal).map fun ep => csvLine (episode_row tv ep))

/-- Model of `CSVExporter.export`. -/
def csvExport (cfg : ExportConfig) (data : ExportInput) : String :=
  match data with
  | .many items =>
    match items with
    | [] => ""
    | first :: _ =>
      let is_movie := first.has_title
      let fieldnames := if is_movie then movieFieldnames else tvFieldnames
      csvLine fieldnames ++
        String.join (items.map fun item =>
          let prepared := prepare_data cfg item
          if is_movie then csvLine (movie_to_row prepared)
          else csvLine (tv_to_row prepared))
  | .single item =>
    let prepared := prepare_data cfg item
    if item.has_title then
      csvLine movieFieldnames ++ csvLine (movie_to_row prepared)
    else
      csvLine tvFieldnames ++ csvLine (tv_to_row prepared) ++
        (if (dgetD prepared "episodes" .null).truthy then
          "\n\n--- EPISODES ---\n" ++ episodes_to_csv prepared
        else "")

/-! ### TXT exporter (src/exporters/txt_exporter.py)

One corner of the source is left as rendering rather than an exception:
`'\n'.join` over a line list containing a `None` overview would raise a
`TypeError` in Python; the claims verified here never evaluate the
formatters on such an item, and the embedding renders the value with
`str` instead. -/

/-- Model of `d.get(k, dflt)` rendered into an f-string (absent key gives the
string default, a present `None` renders as `"None"`). -/
def getStr (d : List (String × Json)) (k dflt : String) : String :=
  match dget d k with
  | some v => v.pyStr
  | none => dflt

/-- Model of `g.get(k, dflt)` rendered, for a JSON value standing for a dict. -/
def objGetStr (j : Json) (k dflt : String) : String :=
  match j with
  | .obj o => getStr o k dflt
  | _ => dflt

/-- Model of `'=' * 60`. -/
def eq60 : String := String.mk (List.replicate 60 '=')

/-- Digit grouping of `{n:,}` over a reversed digit list. -/
def commaRev : List Char → List Char
  | d1 :: d2 :: d3 :: d4 :: rest =>
    d1 :: d2 :: d3 :: ',' :: commaRev (d4 :: rest)
  | l => l

/-- Python `f"{i:,}"` for an int. -/
def intComma (i : Int) : String :=
  if i < 0 then "-" ++ String.mk ((commaRev (natChars i.natAbs).reverse).reverse)
  else String.mk ((commaRev (natChars i.toNat).reverse).reverse)

/-- Model of `{x:,}` of a JSON cell (only applied to numbers by the source). -/
def jsonComma : Json → String
  | .num i => intComma i
  | v => v.pyStr

/-- Python `f"{i:02d}"`. -/
def pad2 (i : Int) : String :=
  if 0 ≤ i ∧ i < 10 then "0" ++ toString i else toString i

/-- Model of `ep.get(k, 0)` as an int (the compared/formatted episode numbers). -/
def epNum (ep : Json) (k : String) : Int :=
  match objGetD ep k (.num 0) with
  | .num i => i
  | _ => 0

/-- Model of `TXTExporter._format_movie`. -/
def format_movie (movie : List (String × Json)) : String :=
  let lines : List String :=
    [eq60,
     "MOVIE: " ++ getStr movie "title" "Unknown",
     eq60,
     "",
     "Original Title: " ++ getStr movie "original_title" "N/A",
     "Release Date: " ++ getStr movie "release_date" "N/A",
     "Runtime: " ++ getStr movie "runtime" "N/A" ++ " minutes",
     "Status: " ++ getStr movie "status" "N/A",
     "",
     "Rating: " ++ getStr movie "vote_average" "N/A" ++ "/10 (" ++
       getStr movie "vote_count" "0" ++ " votes)",
     "Popularity: " ++ getStr movie "popularity" "N/A",
     "",
     "Genres: " ++ joinNames (dgetD movie "genres" (.arr [])),
     "",
     "Tagline: " ++ getStr movie "tagline" "N/A",
     "",
     "Overview:",
     getStr movie "overview" "No overview available.",
     ""]
  let lines := lines ++
    (if (dgetD movie "cast" .null).truthy then
      "Cast:" ::
        ((jsonElems (dgetD movie "cast" .null)).map fun c =>
          "  - " ++ objGetStr c "name" "Unknown" ++ " as " ++
            objGetStr c "character" "Unknown") ++ [""]
    else [])
  let lines := lines ++
    (if (dgetD movie "budget" .null).truthy then
      ["Budget: $" ++ jsonComma (dgetD movie "budget" .null)]
    else [])
  let lines := lines ++
    (if (dgetD movie "revenue" .null).truthy then
      ["Revenue: $" ++ jsonComma (dgetD movie "revenue" .null)]
    else [])
  let lines := lines ++
    (if (dgetD movie "poster_path" .null).truthy then
      ["\nPoster: " ++ (dgetD movie "poster_path" .null).pyStr]
    else [])
  String.intercalate "\n" lines

/-- The stateful episodes section of `TXTExporter._format_tv`
(`current_season` starts at `-1`, a season header line is emitted
whenever the season number changes). -/
def tvEpisodeLines (eps : List Json) : List String :=
  (eps.foldl
    (fun (st : Int × List String) ep =>
      let sn := epNum ep "season_number"
      let st :=
        if sn ≠ st.1 then (sn, st.2 ++ ["\n  Season " ++ toString sn ++ ":"])
        else st
      (st.1, st.2 ++
        ["    S" ++ pad2 st.1 ++ "E" ++ pad2 (epNum ep "episode_number") ++
          " - " ++ objGetStr ep "name" "Unknown" ++ " (" ++
          objGetStr ep "air_date" "N/A" ++ ")"]))
    ((-1 : Int), [])).2

/-- Model of `TXTExporter._format_tv`. -/
def format_tv (tv : List (String × Json)) : String :=
  let lines : List String :=
    [eq60,
     "TV SHOW: " ++ getStr tv "name" "Unknown",
     eq60,
     "",
     "Original Name: " ++ getStr tv "original_name" "N/A",
     "First Air Date: " ++ getStr tv "first_air_date" "N/A",
     "Last Air Date: " ++ getStr tv "last_air_date" "N/A",
     "Status: " ++ getStr tv "status" "N/A",
     "Seasons: " ++ getStr tv "number_of_seasons" "N/A",
     "Episodes: " ++ getStr tv "number_of_episodes" "N/A",
     "",
     "Rating: " ++ getStr tv "vote_average" "N/A" ++ "/10 (" ++
       getStr tv "vote_count" "0" ++ " votes)",
     "Popularity: " ++ getStr tv "popularity" "N/A",
     "",
     "Genres: " ++ joinNames (dgetD tv "genres" (.arr [])),
     "",
     "Tagline: " ++ getStr tv "tagline" "N/A",
     "",
     "Overview:",
     getStr tv "overview" "No overview available.",
     ""]
  let lines := lines ++
    (if (dgetD tv "cast" .null).truthy then
      "Cast:" ::
        ((jsonElems (dgetD tv "cast" .null)).map fun c =>
          "  - " ++ objGetStr c "name" "Unknown" ++ " as " ++
            objGetStr c "character" "Unknown") ++ [""]
    else [])
  let lines := lines ++
    (if (dgetD tv "seasons" .null).truthy then
      "Seasons:" ::
        ((jsonElems (dgetD tv "seasons" .null)).map fun s =>
          "  Season " ++ (objGetD s "season_number" (.num 0)).pyStr ++ ": " ++
            objGetStr s "name" "Unknown" ++ " (" ++
            (objGetD s "episode_count" (.num 0)).pyStr ++ " episodes)") ++ [""]
    else [])
  let lines := lines ++
    (if (dgetD tv "episodes" .null).truthy then
      "Episodes:" :: tvEpisodeLines (jsonElems (dgetD tv "episodes" .null))
    else [])
  let lines := lines ++
    (if (dgetD tv "poster_path" .null).truthy then
      ["\nPoster: " ++ (dgetD tv "poster_path" .null).pyStr]
    else [])
  String.intercalate "\n" lines

/-- Model of `TXTExporter.export`. -/
def txtExport (cfg : ExportConfig) (data : ExportInput) : String :=
  match data with
  | .many items =>
    String.intercalate "\n\n"
      (items.map fun item =>
        let prepared := prepare_data cfg item
        if dhas prepared "title" then format_movie prepared
        else format_tv prepared)
  | .single item =>
    let prepared := prepare_data cfg item
    if item.has_title then format_movie prepared else format_tv prepared

/-! ### XML exporter (src/exporters/xml_exporter.py)

`ET.Element` trees restricted to the shapes `_dict_to_xml` builds: an
element has a tag, attributes, child elements, and (only at leaves)
text.  `_prettify` models `minidom.toprettyxml(indent="  ")` on those
shapes: self-closing empty elements, single-text-node elements written
inline, others multi-line. -/

inductive XmlElem where
  | mk (tag : String) (attrs : List (String × String))
      (children : List XmlElem) (text : Option String) : XmlElem

/-- Model of `key[:-1] if key.endswith('s') else 'item'`. -/
def itemTag (key : String) : String :=
  if key.endsWith "s" then key.dropRight 1 else "item"

mutual

/-- Model of `XMLExporter._dict_to_xml`: the child elements built for a dict. -/
def dict_to_xml : List (String × Json) → List XmlElem
  | [] => []
  | (k, v) :: rest =>
    (match v with
     | .null => []
     | .arr l => [XmlElem.mk k [] (listToXml k l) none]
     | .obj o => [XmlElem.mk k [] (dict_to_xml o) none]
     | v => [XmlElem.mk k [] [] (some v.pyStr)]) ++ dict_to_xml rest

/-- The items of a list value, each under the singularized tag. -/
def listToXml (k : String) : List Json → List XmlElem
  | [] => []
  | item :: rest =>
    (match item with
     | .obj o => XmlElem.mk (itemTag k) [] (dict_to_xml o) none
     | item => XmlElem.mk (itemTag k) [] [] (some item.pyStr)) ::
      listToXml k rest

end

/-- minidom text escaping. -/
def escXmlText (s : String) : String :=
  String.mk ((s.data.map fun c =>
    if c = '&' then ['&', 'a', 'm', 'p', ';']
    else if c = '<' then ['&', 'l', 't', ';']
    else if c = '>' then ['&', 'g', 't', ';']
    else [c]).flatten)

/-- minidom attribute-value escaping. -/
def escXmlAttr (s : String) : String :=
  String.mk ((s.data.map fun c =>
    if c = '&' then ['&', 'a', 'm', 'p', ';']
    else if c = '<' then ['&', 'l', 't', ';']
    else if c = '>' then ['&', 'g', 't', ';']
    else if c = '"' then ['&', 'q', 'u', 'o', 't', ';']
    else [c]).flatten)

mutual

/-- Model of `minidom` `writexml` of one element at an indent level. -/
def prettyElem : Nat → XmlElem → String
  | lvl, .mk tag attrs children text =>
    let indentS := String.mk (List.replicate (2 * lvl) ' ')
    let attrStr := String.join (attrs.map fun p =>
      " " ++ p.1 ++ "=\"" ++ escXmlAttr p.2 ++ "\"")
    match children with
    | [] =>
      match text with
      | none => indentS ++ "<" ++ tag ++ attrStr ++ "/>\n"
      | some t =>
        if t = "" then indentS ++ "<" ++ tag ++ attrStr ++ "/>\n"
        else indentS ++ "<" ++ tag ++ attrStr ++ ">" ++ escXmlText t ++
          "</" ++ tag ++ ">\n"
    | _ :: _ =>
      indentS ++ "<" ++ tag ++ attrStr ++ ">\n" ++
        prettyChildren (lvl + 1) children ++
        indentS ++ "</" ++ tag ++ ">\n"

def prettyChildren : Nat → List XmlElem → String
  | _, [] => ""
  | lvl, e :: es => prettyElem lvl e ++ prettyChildren lvl es

end

/-- Model of `XMLExporter._prettify`: XML declaration, then the pretty tree. -/
def prettify (root : XmlElem) : String :=
  "<?xml version=\"1.0\" ?>\n" ++ prettyElem 0 root

/-- Model of `XMLExporter.export`. -/
def xmlExport (cfg : ExportConfig) (data : ExportInput) : String :=
  let children :=
    match data with
    | .many items =>
      items.map fun item =>
        let prepared := prepare_data cfg item
        XmlElem.mk (if dhas prepared "title" then "movie" else "tv_show") []
          (dict_to_xml prepared) none
    | .single item =>
      let prepared := prepare_data cfg item
      [XmlElem.mk (if item.has_title then "movie" else "tv_show") []
        (dict_to_xml prepared) none]
  prettify (XmlElem.mk "data" [("generator", "MovieFetchBot")] children none)

/-! ## Lemmas about `prepare_data` -/

/-- The in-place `still_path`-pop applied to an episodes value. -/
def popStillArr : Json → Json
  | .arr eps => .arr (eps.map popStill)
  | v => v

theorem dget_prepareCast_ne (cfg : ExportConfig) (d : List (String × Json))
    (k : String) (hk : k ≠ "cast") :
    dget (prepareCast cfg d) k = dget d k := by
  unfold prepareCast
  by_cases h1 : cfg.include_cast
  · by_cases h2 : cfg.max_cast ≠ 0
    · simp [h1, h2, dget_dset, hk]
    · simp [h1, h2]
  · simp [h1, dget_dpop, hk]

theorem dget_prepareEpisodes_ne (cfg : ExportConfig) (d : List (String × Json))
    (k : String) (hk : k ≠ "episodes") :
    dget (prepareEpisodes cfg d) k = dget d k := by
  unfold prepareEpisodes
  by_cases h : cfg.include_episodes
  · simp [h]
  · simp [h, dget_dpop, hk]

theorem dget_dpop3_ne (d : List (String × Json)) (k : String)
    (h1 : k ≠ "poster_path") (h2 : k ≠ "backdrop_path") (h3 : k ≠ "still_path") :
    dget (dpop (dpop (dpop d "poster_path") "backdrop_path") "still_path") k =
      dget d k := by
  rw [dget_dpop, dget_dpop, dget_dpop]
  simp [h1, h2, h3]

theorem dget_prepareImages_ne (cfg : ExportConfig) (d : List (String × Json))
    (k : String) (h1 : k ≠ "poster_path") (h2 : k ≠ "backdrop_path")
    (h3 : k ≠ "still_path") (h4 : k ≠ "episodes") :
    dget (prepareImages cfg d) k = dget d k := by
  unfold prepareImages
  by_cases h : cfg.include_images
  · simp [h]
  · simp only [h, Bool.not_false, if_true]
    split
    · rw [dget_dset]
      simp only [h4, if_false]
      exact dget_dpop3_ne d k h1 h2 h3
    · exact dget_dpop3_ne d k h1 h2 h3

theorem dget_prepareImages_image_none (cfg : ExportConfig)
    (d : List (String × Json)) (hii : cfg.include_images = false) :
    dget (prepareImages cfg d) "poster_path" = none ∧
    dget (prepareImages cfg d) "backdrop_path" = none ∧
    dget (prepareImages cfg d) "still_path" = none := by
  unfold prepareImages
  simp only [hii, Bool.not_false, if_true]
  have hp : ∀ k, (k = "poster_path" ∨ k = "backdrop_path" ∨ k = "still_path") →
      dget (dpop (dpop (dpop d "poster_path") "backdrop_path") "still_path") k =
        none := by
    intro k hk
    rw [dget_dpop, dget_dpop, dget_dpop]
    rcases hk with h | h | h <;> simp [h]
  refine ⟨?_, ?_, ?_⟩ <;>
    (split
     · rw [dget_dset]
       first
       | (rw [if_neg (by decide)]; exact hp _ (by simp))
     · exact hp _ (by simp))

theorem dget_prepareImages_episodes (cfg : ExportConfig)
    (d : List (String × Json)) (hii : cfg.include_images = false) :
    dget (prepareImages cfg d) "episodes" =
      (dget d "episodes").map popStillArr := by
  unfold prepareImages
  simp only [hii, Bool.not_false, if_true]
  have hd : dget (dpop (dpop (dpop d "poster_path") "backdrop_path") "still_path")
      "episodes" = dget d "episodes" := dget_dpop3_ne d _ (by decide) (by decide) (by decide)
  split
  · rename_i eps heq
    rw [dget_dset, if_pos rfl]
    rw [hd] at heq
    rw [heq]
    rfl
  · rename_i hne
    rw [hd]
    rw [hd] at hne
    cases hv : dget d "episodes" with
    | none => rfl
    | some v =>
      cases v with
      | arr eps => exact absurd hv (by intro h; exact hne eps h)
      | null => rfl
      | bool b => rfl
      | num n => rfl
      | str s => rfl
      | obj o => rfl

theorem dget_tv_episodes (t : TVShow) :
    dget (TVShow.model_dump t) "episodes" =
      some (.arr (t.episodes.map Episode.dump)) := rfl

theorem dget_tv_cast (t : TVShow) :
    dget (TVShow.model_dump t) "cast" =
      some (.arr (t.cast.map CastMember.dump)) := rfl

theorem dget_movie_cast (m : Movie) :
    dget (Movie.model_dump m) "cast" =
      some (.arr (m.cast.map CastMember.dump)) := rfl

/-- The prepared `"episodes"` value of a show when episodes are kept:
the dumped episodes, with per-episode `still_path` popped when images
are suppressed. -/
theorem dget_prepare_data_episodes (cfg : ExportConfig) (t : TVShow)
    (hie : cfg.include_episodes = true) :
    dget (prepare_data cfg (.tv t)) "episodes" =
      some (if cfg.include_images then .arr (t.episodes.map Episode.dump)
            else .arr ((t.episodes.map Episode.dump).map popStill)) := by
  unfold prepare_data
  have hcast : dget (prepareEpisodes cfg (prepareCast cfg (Item.model_dump (.tv t))))
      "episodes" = some (.arr (t.episodes.map Episode.dump)) := by
    unfold prepareEpisodes
    simp only [hie, Bool.not_true, Bool.false_eq_true, if_false]
    rw [dget_prepareCast_ne _ _ _ (by decide)]
    exact dget_tv_episodes t
  by_cases hii : cfg.include_images
  · rw [show prepareImages cfg (prepareEpisodes cfg (prepareCast cfg
        (Item.model_dump (.tv t)))) = prepareEpisodes cfg (prepareCast cfg
        (Item.model_dump (.tv t))) from by unfold prepareImages; simp [hii]]
    rw [hcast]
    simp [hii]
  · have hii' : cfg.include_images = false := by
      cases h : cfg.include_images
      · rfl
      · exact absurd h hii
    rw [dget_prepareImages_episodes _ _ hii', hcast]
    simp [hii', popStillArr]

/-! ## Helper lemmas for the claim theorems -/

theorem parse_cast_length (credits : RawCredits) (n : Nat) :
    (parse_cast credits n).length ≤ n := by
  unfold parse_cast
  simp [List.length_take]

theorem parse_crew_length (credits : RawCredits) (jobs : Option (List String)) :
    (parse_crew credits jobs).length ≤ 10 := by
  unfold parse_crew
  cases jobs with
  | none => simp [List.length_take]
  | some js =>
    by_cases h : js.isEmpty <;> simp [h, List.length_take]

theorem parse_crew_jobs (credits : RawCredits) (js : List String)
    (hjs : js.isEmpty = false) :
    ∀ c ∈ parse_crew credits (some js), c.job ∈ js := by
  intro c hc
  unfold parse_crew at hc
  simp only [hjs, if_false] at hc
  obtain ⟨c0, hmem, rfl⟩ := List.mem_map.mp hc
  have hf := (List.mem_filter.mp (List.mem_of_mem_take hmem)).2
  cases hj : c0.job with
  | none => rw [hj] at hf; simp at hf
  | some j =>
    rw [hj] at hf
    simp only [decide_eq_true_eq] at hf
    simpa [hj] using hf

theorem parse_videos_length (videos : RawVideos) :
    (parse_videos videos).length ≤ 5 := by
  unfold parse_videos
  simp [List.length_take]

theorem parse_videos_site (videos : RawVideos) :
    ∀ v ∈ parse_videos videos, v.site = "YouTube" := by
  intro v hv
  unfold parse_videos at hv
  obtain ⟨v0, hmem, rfl⟩ := List.mem_map.mp (List.mem_of_mem_take hv)
  have hf := (List.mem_filter.mp hmem).2
  simp only [decide_eq_true_eq] at hf
  simp [hf]

theorem filterMap_if_eq_filter_map {α β : Type} (p : α → Bool) (f : α → β)
    (l : List α) :
    (l.filterMap fun x => if p x then some (f x) else none) =
      (l.filter p).map f := by
  induction l with
  | nil => rfl
  | cons a l ih =>
    by_cases h : p a <;> simp [List.filterMap_cons, List.filter_cons, h, ih]

/-! ## Claim theorems -/

/-- C7 (confirmed): for every upstream image path (TMDB relative image
paths begin with `/`) and size tier name, `_img` produces exactly
`{imageBase}/{tier}/{path}`; an absent (`None`) or empty upstream path
resolves to an absent URL, never an empty string or broken URL. -/
theorem C7_img_url_resolution :
    (∀ (p size : String),
      img (some ("/" ++ p)) size =
        some (IMAGE_BASE_URL ++ "/" ++ size ++ "/" ++ p)) ∧
    (∀ size, img none size = none) ∧
    (∀ size, img (some "") size = none) := by
  refine ⟨?_, fun _ => rfl, fun size => rfl⟩
  intro p size
  have h : ("/" ++ p : String) ≠ "" := by
    intro h
    have h2 : ("/" ++ p : String).length = 0 := by rw [h]; rfl
    rw [String.length_append] at h2
    have h3 : ("/" : String).length = 1 := rfl
    omega
  simp only [img]
  rw [if_neg h]
  congr 1
  simp [String.append_assoc]

/-- C6 (confirmed): every `get_movie` result caps the cast at 15
entries preserving upstream order, filters the crew to
{Director, Writer, Screenplay, Producer} capped at 10, and keeps at
most 5 videos, all YouTube-hosted. -/
theorem C6_get_movie_caps (raw : RawMovie) :
    (getMovie raw).cast =
      (raw.credits.cast.take 15).map (fun c =>
        { id := c.id, name := c.name.getD "Unknown",
          character := c.character.getD "Unknown",
          profile_path := img c.profile_path, order := c.order }) ∧
    (getMovie raw).cast.length ≤ 15 ∧
    (∀ c ∈ (getMovie raw).crew,
      c.job ∈ ["Director", "Writer", "Screenplay", "Producer"]) ∧
    (getMovie raw).crew.length ≤ 10 ∧
    (∀ v ∈ (getMovie raw).videos, v.site = "YouTube") ∧
    (getMovie raw).videos.length ≤ 5 := by
  refine ⟨rfl, ?_, ?_, ?_, ?_, ?_⟩
  · exact parse_cast_length raw.credits 15
  · exact parse_crew_jobs raw.credits
      ["Director", "Writer", "Screenplay", "Producer"] rfl
  · exact parse_crew_length raw.credits
      (some ["Director", "Writer", "Screenplay", "Producer"])
  · exact parse_videos_site raw.videos
  · exact parse_videos_length raw.videos

/-- C9 (confirmed): decoding the JSON exporter's output of a single
record yields exactly the prepared (field-suppressed) record. -/
theorem C9_json_roundtrip (item : Item) (cfg : ExportConfig) :
    loads (jsonExport cfg (.single item)) =
      some (.obj (prepare_data cfg item)) :=
  loads_dumps (.obj (prepare_data cfg item))

/-- C10 (confirmed): with `include_cast` and `max_cast = 0` the cast
list is left at full length (`elif self.config.max_cast:` is falsy at
0); truncation to `max_cast` entries happens exactly when `max_cast`
is nonzero. -/
theorem C10_max_cast_zero_no_truncation (item : Item) (cfg : ExportConfig)
    (hic : cfg.include_cast = true) :
    (cfg.max_cast = 0 →
      dget (prepare_data cfg item) "cast" = dget item.model_dump "cast") ∧
    (cfg.max_cast ≠ 0 →
      dget (prepare_data cfg item) "cast" =
        some (jsonTake cfg.max_cast (dgetD item.model_dump "cast" (.arr [])))) := by
  constructor
  · intro h0
    unfold prepare_data
    rw [dget_prepareImages_ne _ _ _ (by decide) (by decide) (by decide) (by decide)]
    rw [dget_prepareEpisodes_ne _ _ _ (by decide)]
    unfold prepareCast
    simp [hic, h0]
  · intro hne
    unfold prepare_data
    rw [dget_prepareImages_ne _ _ _ (by decide) (by decide) (by decide) (by decide)]
    rw [dget_prepareEpisodes_ne _ _ _ (by decide)]
    unfold prepareCast
    simp [hic, hne, dget_dset]

def movieW : Movie :=
  { id := 11, title := "W",
    cast := [{ name := "A", character := "X" }, { name := "B", character := "Y" }] }

/-- Witness for C10 at a concrete movie and config. -/
theorem C10_witness :
    dget (prepare_data { max_cast := 0 } (.movie movieW)) "cast" =
      dget (Item.model_dump (.movie movieW)) "cast" :=
  (C10_max_cast_zero_no_truncation (.movie movieW) { max_cast := 0 } rfl).1 rfl

/-- C2 counterexample: the JSON exporter sends an empty list to the
two-character string `"[]"`, not the empty string. -/
theorem C2_counterexample :
    jsonExport {} (.many []) = "[]" ∧ ("[]" : String) ≠ "" := by
  constructor
  · show dumps (.arr []) = "[]"
    unfold dumps
    rw [show serialize 0 (.arr []) = ['[', ']'] from by rw [serialize]]
  · decide

/-- C2 (amended): exporting an empty list never raises, the CSV and TXT
exporters return the empty string, but the JSON exporter returns the
empty JSON array `"[]"` and the XML exporter a root-only document. -/
theorem C2_empty_list_exports (cfg : ExportConfig) :
    csvExport cfg (.many []) = "" ∧
    txtExport cfg (.many []) = "" ∧
    jsonExport cfg (.many []) = "[]" ∧
    xmlExport cfg (.many []) =
      "<?xml version=\"1.0\" ?>\n<data generator=\"MovieFetchBot\"/>\n" := by
  refine ⟨rfl, rfl, ?_, ?_⟩
  · show dumps (.arr []) = "[]"
    unfold dumps
    rw [show serialize 0 (.arr []) = ['[', ']'] from by rw [serialize]]
  · show prettify (XmlElem.mk "data" [("generator", "MovieFetchBot")] [] none) = _
    unfold prettify
    rw [prettyElem]
    decide

def personItemC3 : RawSearchItem := { media_type := some "person", id := 1 }

def movieItemC3 : RawSearchItem := { media_type := some "movie", id := 2 }

def rawC3 : RawSearchData :=
  { results := personItemC3 :: List.replicate 20 movieItemC3 }

/-- C3 counterexample: on 21 raw items — a `person` followed by 20
movies — the code returns 19 results, while the first 20 elements of
the kind-filtered raw list number 20: search truncates before
filtering, not after. -/
theorem C3_counterexample :
    (searchParse "multi" rawC3).results.length = 19 ∧
    (((rawC3.results.filter (searchKindOk "multi")).take 20).map
      (searchConv "multi")).length = 20 := by
  constructor <;> rfl

/-- C3 (amended): `search` truncates the raw results to the first 20
and then filters to movie/tv kinds, so the result list equals the
kind-filter applied to the first 20 raw items; it has at most 20
entries and every entry's media type is movie or tv. -/
theorem C3_search_truncates_then_filters (mt : String) (data : RawSearchData) :
    (searchParse mt data).results =
      ((data.results.take 20).filter (searchKindOk mt)).map (searchConv mt) ∧
    (searchParse mt data).results.length ≤ 20 ∧
    (∀ r ∈ (searchParse mt data).results,
      r.media_type = ContentType.movie ∨ r.media_type = ContentType.tv) := by
  have h1 : (searchParse mt data).results =
      ((data.results.take 20).filter (searchKindOk mt)).map (searchConv mt) :=
    filterMap_if_eq_filter_map _ _ _
  refine ⟨h1, ?_, ?_⟩
  · rw [h1]
    calc (((data.results.take 20).filter (searchKindOk mt)).map
        (searchConv mt)).length
        = ((data.results.take 20).filter (searchKindOk mt)).length := by
          rw [List.length_map]
      _ ≤ (data.results.take 20).length := List.length_filter_le _ _
      _ ≤ 20 := by simp [List.length_take]
  · intro r hr
    rw [h1] at hr
    obtain ⟨item, hmem, rfl⟩ := List.mem_map.mp hr
    unfold searchConv
    by_cases h : (item.media_type.getD mt) = "movie" <;> simp [h]

def tvC4 : TVShow :=
  { id := 1, name := "S",
    seasons := [{ id := 2, season_number := 1, name := "Season 1",
                  episode_count := 3, poster_path := some "/p.jpg" }] }

def cfgC4 : ExportConfig := { include_images := false }

/-- C4 counterexample: with `include_images = false`, a per-season
poster path survives `prepare_data` untouched — the prepared record of
`tvC4` still contains a `"poster_path"` key with a non-null value
inside its `"seasons"` list, so an image path does appear in the
prepared record. -/
theorem C4_counterexample :
    cfgC4.include_images = false ∧
    dget (prepare_data cfgC4 (.tv tvC4)) "seasons" =
      some (.arr [.obj [("id", .num 2), ("season_number", .num 1),
        ("name", .str "Season 1"), ("episode_count", .num 3),
        ("air_date", .null), ("overview", .null),
        ("poster_path", .str "/p.jpg"), ("vote_average", .null)]]) :=
  ⟨rfl, rfl⟩

/-- C4 (amended): with `include_images = false`, `prepare_data` removes
the top-level poster/backdrop/still keys and the `still_path` of every
episode dict, and leaves every other top-level field (outside the
cast/episodes handling) unchanged — in particular the seasons, whose
per-season poster paths are retained. -/
theorem C4_image_suppression (item : Item) (cfg : ExportConfig)
    (hii : cfg.include_images = false) :
    dget (prepare_data cfg item) "poster_path" = none ∧
    dget (prepare_data cfg item) "backdrop_path" = none ∧
    dget (prepare_data cfg item) "still_path" = none ∧
    (∀ ep ∈ jsonElems (dgetD (prepare_data cfg item) "episodes" (.arr [])),
      ∀ o, ep = Json.obj o → dget o "still_path" = none) ∧
    (∀ k : String, k ≠ "poster_path" → k ≠ "backdrop_path" →
      k ≠ "still_path" → k ≠ "cast" → k ≠ "episodes" →
      dget (prepare_data cfg item) k = dget item.model_dump k) := by
  unfold prepare_data
  obtain ⟨hp, hb, hs⟩ := dget_prepareImages_image_none cfg
    (prepareEpisodes cfg (prepareCast cfg item.model_dump)) hii
  refine ⟨hp, hb, hs, ?_, ?_⟩
  · intro ep hep o heq
    simp only [dgetD] at hep
    rw [dget_prepareImages_episodes _ _ hii] at hep
    cases hv : dget (prepareEpisodes cfg (prepareCast cfg item.model_dump))
        "episodes" with
    | none => rw [hv] at hep; simp [jsonElems] at hep
    | some v =>
      rw [hv] at hep
      cases v with
      | arr eps =>
        simp only [Option.map_some, popStillArr, Option.getD_some,
          jsonElems] at hep
        obtain ⟨ep0, _, rfl⟩ := List.mem_map.mp hep
        cases ep0 with
        | obj o0 =>
          simp only [popStill] at heq
          cases heq
          rw [dget_dpop]
          simp
        | null => simp [popStill] at heq
        | bool b => simp [popStill] at heq
        | num n => simp [popStill] at heq
        | str s => simp [popStill] at heq
        | arr l => simp [popStill] at heq
      | null => simp [popStillArr, jsonElems] at hep
      | bool b => simp [popStillArr, jsonElems] at hep
      | num n => simp [popStillArr, jsonElems] at hep
      | str s => simp [popStillArr, jsonElems] at hep
      | obj o2 => simp [popStillArr, jsonElems] at hep
  · intro k h1 h2 h3 h4 h5
    rw [dget_prepareImages_ne _ _ _ h1 h2 h3 h5,
      dget_prepareEpisodes_ne _ _ _ h5, dget_prepareCast_ne _ _ _ h4]

/-- Witness for C4 at a concrete show and config. -/
theorem C4_witness :
    dget (prepare_data cfgC4 (.tv tvC4)) "poster_path" = none :=
  (C4_image_suppression (.tv tvC4) cfgC4 rfl).1

/-- The flat-episode order relation of the specification: ascending
season number, and ascending episode number within a season. -/
def epLe (a b : Episode) : Prop :=
  a.season_number < b.season_number ∨
    (a.season_number = b.season_number ∧ a.episode_number ≤ b.episode_number)

instance (a b : Episode) : Decidable (epLe a b) := by
  unfold epLe; infer_instance

theorem collectEpisodes_eq_flatten (seasons : List Season)
    (fetch : Int → RawSeasonPayload) :
    collectEpisodes seasons fetch =
      ((seasons.filter fun s => decide (s.season_number > 0)).map
        (fun s => get_season_episodes (fetch s.season_number)
          s.season_number)).flatten := by
  unfold collectEpisodes
  suffices h : ∀ acc, seasons.foldl
      (fun acc s =>
        if s.season_number > 0 then
          acc ++ get_season_episodes (fetch s.season_number) s.season_number
        else acc) acc =
      acc ++ ((seasons.filter fun s => decide (s.season_number > 0)).map
        (fun s => get_season_episodes (fetch s.season_number)
          s.season_number)).flatten by
    simpa using h []
  induction seasons with
  | nil => intro acc; simp
  | cons s rest ih =>
    intro acc
    by_cases h : s.season_number > 0 <;>
      simp [List.filter_cons, h, ih, List.append_assoc]

theorem mem_get_season_episodes (payload : RawSeasonPayload) (n : Int) :
    ∀ e ∈ get_season_episodes payload n, e.season_number = n := by
  intro e he
  unfold get_season_episodes at he
  obtain ⟨ep, _, rfl⟩ := List.mem_map.mp he
  rfl

def rawTVc5 : RawTV :=
  { id := 1, name := "C",
    seasons := [{ id := 1, season_number := 2, name := "S2", episode_count := 1 },
                { id := 2, season_number := 1, name := "S1", episode_count := 1 }] }

def fetchC5 : Int → RawSeasonPayload := fun _ =>
  { episodes := [{ id := 3, episode_number := 1, name := "E1" }] }

/-- C5 counterexample: `get_tv_show` concatenates seasons in upstream
order without sorting — when the upstream seasons list is `[2, 1]` the
flat episodes list is `[(2,1), (1,1)]`, not ascending by season. -/
theorem C5_counterexample :
    ((getTVShow rawTVc5 fetchC5 true).episodes.map
      (fun e => (e.season_number, e.episode_number))) = [(2, 1), (1, 1)] ∧
    ¬ ((getTVShow rawTVc5 fetchC5 true).episodes.Pairwise epLe) := by
  constructor
  · rfl
  · decide

/-- C5 (amended): with `include_episodes = true`, the flat episodes
list of `get_tv_show` holds only episodes of seasons with
`season_number > 0` (season 0 is always skipped) and equals the
concatenation of the per-season fetches in upstream season order;
it is ordered by ascending (season, episode) exactly when the upstream
seasons list and each season's episodes arrive already ascending. -/
theorem C5_episodes_skip_specials_and_order (data : RawTV)
    (fetch : Int → RawSeasonPayload) :
    (∀ ep ∈ (getTVShow data fetch true).episodes, 0 < ep.season_number) ∧
    (getTVShow data fetch true).episodes =
      (((parseSeasons data.seasons).filter
          fun s => decide (s.season_number > 0)).map
        (fun s => get_season_episodes (fetch s.season_number)
          s.season_number)).flatten ∧
    ((data.seasons.map RawSeason.season_number).Pairwise (· < ·) →
      (∀ n : Int,
        ((fetch n).episodes.map RawEpisode.episode_number).Pairwise (· < ·)) →
      ((getTVShow data fetch true).episodes).Pairwise epLe) := by
  have heq : (getTVShow data fetch true).episodes =
      collectEpisodes (parseSeasons data.seasons) fetch := rfl
  have hflat := collectEpisodes_eq_flatten (parseSeasons data.seasons) fetch
  refine ⟨?_, by rw [heq, hflat], ?_⟩
  · intro ep hep
    rw [heq, hflat] at hep
    rw [List.mem_flatten] at hep
    obtain ⟨l, hl, hepl⟩ := hep
    obtain ⟨s, hs, rfl⟩ := List.mem_map.mp hl
    have hpos := (List.mem_filter.mp hs).2
    rw [mem_get_season_episodes _ _ ep hepl]
    simpa using hpos
  · intro hseasons heps
    rw [heq, hflat]
    rw [List.pairwise_flatten]
    have hsnum : ((parseSeasons data.seasons).map Season.season_number) =
        data.seasons.map RawSeason.season_number := by
      unfold parseSeasons
      rw [List.map_map]
      rfl
    have hseasons' : (parseSeasons data.seasons).Pairwise
        (fun s1 s2 => s1.season_number < s2.season_number) := by
      rw [← List.pairwise_map (f := Season.season_number)]
      rw [hsnum]
      exact hseasons
    refine ⟨?_, ?_⟩
    · intro l hl
      obtain ⟨s, _, rfl⟩ := List.mem_map.mp hl
      unfold get_season_episodes
      rw [List.pairwise_map]
      have := heps s.season_number
      rw [List.pairwise_map] at this
      refine this.imp ?_
      intro a b hab
      right
      exact ⟨rfl, le_of_lt hab⟩
    · rw [List.pairwise_map]
      refine (hseasons'.filter _).imp ?_
      intro s1 s2 h12 x hx y hy
      left
      rw [mem_get_season_episodes _ _ x hx, mem_get_season_episodes _ _ y hy]
      exact h12

def rawTVW5 : RawTV :=
  { id := 9, name := "W",
    seasons := [{ id := 1, season_number := 1, name := "S1", episode_count := 2 },
                { id := 2, season_number := 2, name := "S2", episode_count := 2 }] }

def fetchW5 : Int → RawSeasonPayload := fun _ =>
  { episodes := [{ id := 1, episode_number := 1, name := "E1" },
                 { id := 2, episode_number := 2, name := "E2" }] }

/-- Witness for C5: on ascending upstream data the flat list is
ordered. -/
theorem C5_witness :
    ((getTVShow rawTVW5 fetchW5 true).episodes).Pairwise epLe :=
  (C5_episodes_skip_specials_and_order rawTVW5 fetchW5).2.2 (by decide)
    (fun n => by
      rw [show fetchW5 n =
        { episodes := [{ id := 1, episode_number := 1, name := "E1" },
                       { id := 2, episode_number := 2, name := "E2" }] } from rfl]
      decide)

/-- C8 (confirmed): exporting a single show with a non-empty prepared
episodes list to CSV yields the show header and data record followed by
the literal `\n\n--- EPISODES ---\n` separator and a second block with
the fixed episode columns, one record per episode; a list export never
appends an episodes block. -/
theorem C8_csv_single_show_episodes (cfg : ExportConfig) (t : TVShow)
    (hie : cfg.include_episodes = true) (hne : t.episodes ≠ []) :
    (csvExport cfg (.single (.tv t)) =
      csvLine tvFieldnames ++ csvLine (tv_to_row (prepare_data cfg (.tv t))) ++
        ("\n\n--- EPISODES ---\n" ++
          (csvLine epFieldnames ++
            String.join
              ((jsonElems (dgetD (prepare_data cfg (.tv t)) "episodes" .null)).map
                fun ep => csvLine (episode_row (prepare_data cfg (.tv t)) ep))))) ∧
    (jsonElems (dgetD (prepare_data cfg (.tv t)) "episodes" .null)).length =
      t.episodes.length ∧
    (∀ (first : Item) (rest : List Item),
      csvExport cfg (.many (first :: rest)) =
        csvLine (if first.has_title then movieFieldnames else tvFieldnames) ++
          String.join ((first :: rest).map fun item =>
            if first.has_title then csvLine (movie_to_row (prepare_data cfg item))
            else csvLine (tv_to_row (prepare_data cfg item)))) := by
  have hep := dget_prepare_data_episodes cfg t hie
  obtain ⟨L, hL, hlen⟩ : ∃ L, dgetD (prepare_data cfg (.tv t)) "episodes" .null =
      .arr L ∧ L.length = t.episodes.length := by
    by_cases hii : cfg.include_images
    · refine ⟨t.episodes.map Episode.dump, ?_, by simp⟩
      unfold dgetD
      rw [hep]
      simp [hii]
    · refine ⟨(t.episodes.map Episode.dump).map popStill, ?_, by simp⟩
      unfold dgetD
      rw [hep]
      simp [hii]
  have hLne : L ≠ [] := by
    intro h
    rw [h] at hlen
    exact hne (List.eq_nil_of_length_eq_zero hlen.symm)
  have htr : (dgetD (prepare_data cfg (.tv t)) "episodes" .null).truthy = true := by
    rw [hL]
    simp [Json.truthy, List.isEmpty_iff, hLne]
  refine ⟨?_, by rw [hL]; simpa [jsonElems] using hlen, fun first rest => rfl⟩
  show csvLine tvFieldnames ++ csvLine (tv_to_row (prepare_data cfg (.tv t))) ++
      (if (dgetD (prepare_data cfg (.tv t)) "episodes" .null).truthy then
        "\n\n--- EPISODES ---\n" ++ episodes_to_csv (prepare_data cfg (.tv t))
      else "") = _
  rw [if_pos htr]
  unfold episodes_to_csv
  simp only [htr, Bool.not_true, Bool.false_eq_true, if_false]

def tvW8 : TVShow :=
  { id := 7, name := "Show",
    episodes := [{ id := 1, episode_number := 1, season_number := 1,
                   name := "Pilot" }] }

/-- Witness for C8 at a concrete show and the default config. -/
theorem C8_witness :
    csvExport {} (.single (.tv tvW8)) =
      csvLine tvFieldnames ++ csvLine (tv_to_row (prepare_data {} (.tv tvW8))) ++
        ("\n\n--- EPISODES ---\n" ++
          (csvLine epFieldnames ++
            String.join
              ((jsonElems (dgetD (prepare_data {} (.tv tvW8)) "episodes" .null)).map
                fun ep => csvLine (episode_row (prepare_data {} (.tv tvW8)) ep)))) :=
  (C8_csv_single_show_episodes {} tvW8 rfl (by simp [tvW8])).1

/-! ### C1: the `_request` retry policy -/

theorem requestLoop_ok_level2 (script : Nat → ReqOutcome) (b : Nat)
    (h : (requestLoop script 2).1 = .ok b) : script 2 = .success b := by
  rw [requestLoop] at h
  simp only [show (2 : Nat) < 3 from by decide, if_true] at h
  cases h2 : script 2 with
  | success b0 => rw [h2] at h; simp at h; rw [h]
  | httpError s =>
    rw [h2] at h
    by_cases hs : s = 429
    · subst hs
      simp +decide at h
      rw [requestLoop] at h
      simp at h
    · simp [hs] at h
  | netError => rw [h2] at h; simp +decide at h

theorem requestLoop_ok_level1 (script : Nat → ReqOutcome) (b : Nat)
    (h : (requestLoop script 1).1 = .ok b) :
    script 1 = .success b ∨ script 2 = .success b := by
  rw [requestLoop] at h
  simp only [show (1 : Nat) < 3 from by decide, if_true] at h
  cases h1 : script 1 with
  | success b0 => rw [h1] at h; simp at h; exact Or.inl (by rw [h])
  | httpError s =>
    rw [h1] at h
    by_cases hs : s = 429
    · subst hs
      simp +decide at h
      exact Or.inr (requestLoop_ok_level2 script b h)
    · simp [hs] at h
  | netError =>
    rw [h1] at h
    simp +decide at h
    exact Or.inr (requestLoop_ok_level2 script b h)

/-- C1 counterexample: when every attempt fails at network level, the
exhausted request re-raises the network error — it does not fail with
the retry-exhausted (`Max retries exceeded`) error the claim states. -/
theorem C1_counterexample :
    request (fun _ => ReqOutcome.netError) = (.raisedNet, [1, 1]) ∧
    ReqResult.raisedNet ≠ ReqResult.maxRetriesExceeded := by
  constructor
  · simp +decide [request, requestLoop]
  · decide

/-- C1 (amended): a success returns immediately; a non-429 HTTP error
at any reached attempt is surfaced immediately with no further retry or
sleep; a 429 is retried up to 3 attempts total with the delay doubling
from 1 second, and 429-exhaustion raises the retry-exhausted error
after sleeps [1, 2, 4]; a network failure is retried up to 2 more
attempts with a flat 1-second delay, and network-exhaustion re-raises
the network error itself (never the retry-exhausted error, and never
swallowed: an `ok` result can only come from a successful attempt). -/
theorem C1_request_retry_policy :
    (∀ (script : Nat → ReqOutcome) (b : Nat), script 0 = .success b →
      request script = (.ok b, [])) ∧
    (∀ (script : Nat → ReqOutcome) (s attempt : Nat), attempt < 3 →
      script attempt = .httpError s → s ≠ 429 →
      requestLoop script attempt = (.raisedHttp s, [])) ∧
    (∀ (script : Nat → ReqOutcome) (b : Nat),
      script 0 = .httpError 429 → script 1 = .success b →
      request script = (.ok b, [1])) ∧
    (∀ (script : Nat → ReqOutcome) (b : Nat),
      script 0 = .httpError 429 → script 1 = .httpError 429 →
      script 2 = .success b → request script = (.ok b, [1, 2])) ∧
    (request (fun _ => .httpError 429) = (.maxRetriesExceeded, [1, 2, 4])) ∧
    (∀ (script : Nat → ReqOutcome) (b : Nat),
      script 0 = .netError → script 1 = .success b →
      request script = (.ok b, [1])) ∧
    (∀ script : Nat → ReqOutcome, script 0 = .netError →
      script 1 = .netError → script 2 = .netError →
      request script = (.raisedNet, [1, 1])) ∧
    (∀ (script : Nat → ReqOutcome) (b : Nat), (request script).1 = .ok b →
      ∃ i, i < 3 ∧ script i = .success b) := by
  refine ⟨?_, ?_, ?_, ?_, ?_, ?_, ?_, ?_⟩
  · intro script b h0
    unfold request
    rw [requestLoop]
    simp +decide [h0]
  · intro script s attempt ha hs hne
    rw [requestLoop]
    simp +decide [ha, hs, hne]
  · intro script b h0 h1
    unfold request
    rw [requestLoop]
    simp +decide only [h0]
    rw [requestLoop]
    simp +decide [h1]
  · intro script b h0 h1 h2
    unfold request
    rw [requestLoop]
    simp +decide only [h0]
    rw [requestLoop]
    simp +decide only [h1]
    rw [requestLoop]
    simp +decide [h2]
  · simp +decide [request, requestLoop]
  · intro script b h0 h1
    unfold request
    rw [requestLoop]
    simp +decide only [h0]
    rw [requestLoop]
    simp +decide [h1]
  · intro script h0 h1 h2
    unfold request
    rw [requestLoop]
    simp +decide only [h0]
    rw [requestLoop]
    simp +decide only [h1]
    rw [requestLoop]
    simp +decide [h2]
  · intro script b h
    unfold request at h
    rw [requestLoop] at h
    simp only [show (0 : Nat) < 3 from by decide, if_true] at h
    cases h0 : script 0 with
    | success b0 =>
      rw [h0] at h
      simp at h
      exact ⟨0, by decide, by rw [h0, h]⟩
    | httpError s =>
      rw [h0] at h
      by_cases hs : s = 429
      · subst hs
        simp +decide at h
        rcases requestLoop_ok_level1 script b h with h' | h'
        · exact ⟨1, by decide, h'⟩
        · exact ⟨2, by decide, h'⟩
      · simp [hs] at h
    | netError =>
      rw [h0] at h
      simp +decide at h
      rcases requestLoop_ok_level1 script b h with h' | h'
      · exact ⟨1, by decide, h'⟩
      · exact ⟨2, by decide, h'⟩

/-- Witness for C1: an immediately successful script. -/
theorem C1_witness : request (fun _ => ReqOutcome.success 5) = (.ok 5, []) :=
  C1_request_retry_policy.1 (fun _ => .success 5) 5 rfl

end FetchBot
